import Mathlib

/-!
Verification of the SPARQL query sanitization, validation and retry logic of the
wikidata-mcp server.  The Python sources `wikidata_api.py` and `server_sse.py` are
shallowly embedded: Python strings become `List Char`, pure string manipulation is
translated function by function, and the network endpoint is a stub parameter.

Modelling notes, applying throughout:
 - Python `str.splitlines` is modelled for the line separators `"\n"` only (the
   sources never contain `"\r"`-separated text).
 - Python `str.upper` / `str.lower` are modelled for ASCII letters; `str.strip`
   strips the six ASCII whitespace characters Python strips.
 - Output of `print` (server-side diagnostic logging) is ignored, as are the
   `traceback` module strings, which are carried through as stub-supplied text.
-/

set_option maxRecDepth 10000

/-! Python string primitives, over `List Char`. -/

/-- The characters Python `str.strip()` removes. -/
def pySpaceChars : List Char := [' ', '\t', '\n', '\r', '\x0b', '\x0c']

def pyIsSpace (c : Char) : Bool := pySpaceChars.contains c

/-- Python `str.strip()`. -/
def pyStrip (s : List Char) : List Char :=
  ((s.dropWhile pyIsSpace).reverse.dropWhile pyIsSpace).reverse

/-- ASCII lowercase/uppercase pairs, used to model Python `str.upper` without
unicode tables. -/
def lowerUpperTable : List (Char × Char) :=
  [('a', 'A'), ('b', 'B'), ('c', 'C'), ('d', 'D'), ('e', 'E'), ('f', 'F'),
   ('g', 'G'), ('h', 'H'), ('i', 'I'), ('j', 'J'), ('k', 'K'), ('l', 'L'),
   ('m', 'M'), ('n', 'N'), ('o', 'O'), ('p', 'P'), ('q', 'Q'), ('r', 'R'),
   ('s', 'S'), ('t', 'T'), ('u', 'U'), ('v', 'V'), ('w', 'W'), ('x', 'X'),
   ('y', 'Y'), ('z', 'Z')]

/-- Python `str.upper` on a single character (ASCII). -/
def pyToUpper (c : Char) : Char :=
  (((lowerUpperTable.find? (fun p => p.1 == c)).map Prod.snd).getD c)

/-- Python `str.lower` on a single character (ASCII). -/
def pyToLower (c : Char) : Char :=
  (((lowerUpperTable.find? (fun p => p.2 == c)).map Prod.fst).getD c)

/-- Python `str.upper` (ASCII). -/
def pyUpper (s : List Char) : List Char := s.map pyToUpper

/-- Helper of `pySplitlines`: split on newline characters, accumulating the
current line in reverse. -/
def splitAcc : List Char → List Char → List (List Char)
  | [], acc => [acc.reverse]
  | c :: rest, acc =>
    if c = '\n' then acc.reverse :: splitAcc rest [] else splitAcc rest (c :: acc)

/-- Drop the final piece produced by `splitAcc` when it is empty; Python
`splitlines` emits no empty final line for text ending in a newline. -/
def dropLastEmpty (ls : List (List Char)) : List (List Char) :=
  match ls.getLast? with
  | some [] => ls.dropLast
  | _ => ls

/-- Python `str.splitlines()`, for `"\n"`-separated text. -/
def pySplitlines (s : List Char) : List (List Char) :=
  if s = [] then [] else dropLastEmpty (splitAcc s [])

/-- Python `"\n".join(...)`. -/
def joinNL : List (List Char) → List Char
  | [] => []
  | [l] => l
  | l :: ls => l ++ '\n' :: joinNL ls

/-- Python `\w` (ASCII). -/
def isWordCh (c : Char) : Bool :=
  (97 ≤ c.toNat && c.toNat ≤ 122) || (65 ≤ c.toNat && c.toNat ≤ 90) ||
  (48 ≤ c.toNat && c.toNat ≤ 57) || c == '_'

/-- Python `\d` (ASCII). -/
def isDigitCh (c : Char) : Bool := 48 ≤ c.toNat && c.toNat ≤ 57

/-- The class `[a-zA-Z]`. -/
def isAlphaCh (c : Char) : Bool :=
  (97 ≤ c.toNat && c.toNat ≤ 122) || (65 ≤ c.toNat && c.toNat ≤ 90)

/-- The class `[a-zA-Z0-9]`. -/
def isAlnumCh (c : Char) : Bool := isAlphaCh c || isDigitCh c

/-- Python substring containment `pat in s`. -/
def hasSub (pat : List Char) : List Char → Bool
  | [] => pat.isEmpty
  | c :: rest => pat.isPrefixOf (c :: rest) || hasSub pat rest

/-! A JSON value model for `json.dumps` and `json.loads`.  Numeric literals are
kept as their lexemes, so floating point layout plays no role. -/

inductive JsonVal where
  | null
  | bool (b : Bool)
  | num (lex : List Char)
  | str (s : List Char)
  | arr (items : List JsonVal)
  | obj (members : List (List Char × JsonVal))

/-- Lowercase hexadecimal digit, as Python `json.dumps` emits in `\uXXXX`. -/
def hexDigitCh (n : Nat) : Char :=
  if n < 10 then Char.ofNat (48 + n) else Char.ofNat (87 + n)

/-- The escaping `json.dumps` applies inside string literals.  Python emits the
short escapes `\b` and `\f` for those two control characters and `\uXXXX` for
characters above ASCII; here every control character below 0x20 other than the
three short-escaped ones becomes `\u00XX` and characters above ASCII are kept
verbatim — both texts denote the same JSON string value, which is all the
claims depend on. -/
def escChar (c : Char) : List Char :=
  if c = '"' then ['\\', '"']
  else if c = '\\' then ['\\', '\\']
  else if c = '\n' then ['\\', 'n']
  else if c = '\r' then ['\\', 'r']
  else if c = '\t' then ['\\', 't']
  else if c.toNat < 32 then
    ['\\', 'u', '0', '0', hexDigitCh (c.toNat / 16), hexDigitCh (c.toNat % 16)]
  else [c]

def escStr (s : List Char) : List Char := (s.map escChar).flatten

mutual
/-- Python `json.dumps` with its default separators. -/
def dumpVal : JsonVal → List Char
  | .null => "null".data
  | .bool true => "true".data
  | .bool false => "false".data
  | .num lex => lex
  | .str s => '"' :: (escStr s ++ ['"'])
  | .arr items => '[' :: (dumpItems items ++ [']'])
  | .obj members => '\x7b' :: (dumpMembers members ++ ['\x7d'])
def dumpItems : List JsonVal → List Char
  | [] => []
  | [v] => dumpVal v
  | v :: rest => dumpVal v ++ ',' :: ' ' :: dumpItems rest
def dumpMembers : List (List Char × JsonVal) → List Char
  | [] => []
  | [(k, v)] => ('"' :: (escStr k ++ ['"'])) ++ ':' :: ' ' :: dumpVal v
  | (k, v) :: rest =>
    (('"' :: (escStr k ++ ['"'])) ++ ':' :: ' ' :: dumpVal v) ++ ',' :: ' ' :: dumpMembers rest
end

/-! Python `json.loads`, as a fueled recursive-descent parser.  It decides
validity of JSON texts; `parseJson s = none` means `json.loads` raises
`JSONDecodeError`.  Two deliberate over-acceptances, both harmless for the
claims (an over-accepting recognizer only strengthens an invalidity result, and
`json.dumps` output never exercises them): number literals may carry leading
zeros, and `\u` escapes for surrogate code points are rejected rather than
paired. -/

def isJsonWs (c : Char) : Bool := c == ' ' || c == '\t' || c == '\n' || c == '\r'

def skipWs (s : List Char) : List Char := s.dropWhile isJsonWs

/-- Is the head of the list this character? -/
def headIs (c : Char) : List Char → Bool
  | [] => false
  | d :: _ => d == c

def hexVal (c : Char) : Option Nat :=
  if 48 ≤ c.toNat && c.toNat ≤ 57 then some (c.toNat - 48)
  else if 97 ≤ c.toNat && c.toNat ≤ 102 then some (c.toNat - 87)
  else if 65 ≤ c.toNat && c.toNat ≤ 70 then some (c.toNat - 55)
  else none

/-- Parse the body of a JSON string literal, after the opening quote; returns
the decoded characters and the rest after the closing quote. -/
def parseStrBody : List Char → Option (List Char × List Char)
  | [] => none
  | c :: rest =>
    if c == '"' then some ([], rest)
    else if c == '\\' then
      match rest with
      | [] => none
      | e :: rest2 =>
        if e == 'u' then
          match rest2 with
          | h1 :: h2 :: h3 :: h4 :: rest' =>
            match hexVal h1, hexVal h2, hexVal h3, hexVal h4 with
            | some a, some b, some cc, some d =>
              let n := ((a * 16 + b) * 16 + cc) * 16 + d
              if n < 0xd800 || 0xe000 ≤ n then
                (parseStrBody rest').map (fun p => (Char.ofNat n :: p.1, p.2))
              else none
            | _, _, _, _ => none
          | _ => none
        else if e == '"' then (parseStrBody rest2).map (fun p => ('"' :: p.1, p.2))
        else if e == '\\' then (parseStrBody rest2).map (fun p => ('\\' :: p.1, p.2))
        else if e == '/' then (parseStrBody rest2).map (fun p => ('/' :: p.1, p.2))
        else if e == 'n' then (parseStrBody rest2).map (fun p => ('\n' :: p.1, p.2))
        else if e == 'r' then (parseStrBody rest2).map (fun p => ('\r' :: p.1, p.2))
        else if e == 't' then (parseStrBody rest2).map (fun p => ('\t' :: p.1, p.2))
        else if e == 'b' then (parseStrBody rest2).map (fun p => ('\x08' :: p.1, p.2))
        else if e == 'f' then (parseStrBody rest2).map (fun p => ('\x0c' :: p.1, p.2))
        else none
    else if c.toNat < 32 then none
    else (parseStrBody rest).map (fun p => (c :: p.1, p.2))

/-- The integer-digits part of a number literal. -/
def scanIntPart (s : List Char) : Option (List Char × List Char) :=
  if (s.takeWhile isDigitCh).isEmpty then none
  else some (s.takeWhile isDigitCh, s.dropWhile isDigitCh)

/-- The optional fraction part of a number literal. -/
def scanFrac : List Char → Option (List Char × List Char)
  | [] => some ([], [])
  | c :: r =>
    if c == '.' then
      if (r.takeWhile isDigitCh).isEmpty then none
      else some ('.' :: r.takeWhile isDigitCh, r.dropWhile isDigitCh)
    else some ([], c :: r)

/-- The optional exponent part of a number literal. -/
def scanExp : List Char → Option (List Char × List Char)
  | [] => some ([], [])
  | c :: r =>
    if c == 'e' || c == 'E' then
      match r with
      | [] => none
      | d :: r1 =>
        if d == '+' || d == '-' then
          if (r1.takeWhile isDigitCh).isEmpty then none
          else some (c :: d :: r1.takeWhile isDigitCh, r1.dropWhile isDigitCh)
        else
          if ((d :: r1).takeWhile isDigitCh).isEmpty then none
          else some (c :: (d :: r1).takeWhile isDigitCh, (d :: r1).dropWhile isDigitCh)
    else some ([], c :: r)

/-- The digits, fraction and exponent of a number literal after the optional
sign `sg`; returns the full lexeme and the rest. -/
def scanNumCore (sg t : List Char) : Option (List Char × List Char) :=
  (scanIntPart t).bind (fun p =>
    (scanFrac p.2).bind (fun q =>
      (scanExp q.2).bind (fun w =>
        some (sg ++ (p.1 ++ (q.1 ++ w.1)), w.2))))

/-- A number literal: optional minus sign, digits, optional fraction and
exponent; returns the lexeme and the rest. -/
def scanNum : List Char → Option (List Char × List Char)
  | [] => none
  | c :: r => if c == '-' then scanNumCore ['-'] r else scanNumCore [] (c :: r)

/-- The rest after a number literal may not begin with a character that could
extend the literal. -/
def numSafe : List Char → Bool
  | [] => true
  | c :: _ => !(isDigitCh c || c == '.' || c == 'e' || c == 'E')

/-- A well-formed number lexeme: `scanNum` consumes exactly it. -/
def numLexemeWF (lex : List Char) : Bool := scanNum lex == some (lex, [])

mutual
/-- Well-formedness of a JSON value: every number lexeme is a number literal. -/
def jsonWF : JsonVal → Bool
  | .num lex => numLexemeWF lex
  | .arr items => jsonWFItems items
  | .obj members => jsonWFMembers members
  | _ => true
def jsonWFItems : List JsonVal → Bool
  | [] => true
  | v :: rest => jsonWF v && jsonWFItems rest
def jsonWFMembers : List (List Char × JsonVal) → Bool
  | [] => true
  | (_, v) :: rest => jsonWF v && jsonWFMembers rest
end

mutual
/-- Fuel needed by `parseVal` on the output of `dumpVal`. -/
def rankVal : JsonVal → Nat
  | .arr items => rankItems items + 1
  | .obj members => rankMembers members + 1
  | _ => 1
def rankItems : List JsonVal → Nat
  | [] => 0
  | v :: rest => rankVal v + rankItems rest + 1
def rankMembers : List (List Char × JsonVal) → Nat
  | [] => 0
  | (_, v) :: rest => rankVal v + rankMembers rest + 1
end

mutual
/-- Parse one JSON value. -/
def parseVal : Nat → List Char → Option (JsonVal × List Char)
  | 0, _ => none
  | fuel + 1, s =>
    match s with
    | [] => none
    | c :: r =>
      if c == 'n' then
        match r with
        | 'u' :: 'l' :: 'l' :: r' => some (.null, r')
        | _ => none
      else if c == 't' then
        match r with
        | 'r' :: 'u' :: 'e' :: r' => some (.bool true, r')
        | _ => none
      else if c == 'f' then
        match r with
        | 'a' :: 'l' :: 's' :: 'e' :: r' => some (.bool false, r')
        | _ => none
      else if c == '"' then (parseStrBody r).map (fun p => (.str p.1, p.2))
      else if c == '[' then
        (if headIs ']' (skipWs r) then some (.arr [], (skipWs r).tail)
         else (parseItems fuel (skipWs r)).map (fun p => (.arr p.1, p.2)))
      else if c == '\x7b' then
        (if headIs '\x7d' (skipWs r) then some (.obj [], (skipWs r).tail)
         else (parseMembers fuel (skipWs r)).map (fun p => (.obj p.1, p.2)))
      else (scanNum (c :: r)).map (fun p => ((.num p.1 : JsonVal), p.2))
/-- Parse the non-empty items of an array, up to and including `]`. -/
def parseItems : Nat → List Char → Option (List JsonVal × List Char)
  | 0, _ => none
  | fuel + 1, s =>
    match parseVal fuel (skipWs s) with
    | none => none
    | some (v, r) =>
      if headIs ',' (skipWs r) then
        (parseItems fuel (skipWs r).tail).map (fun p => (v :: p.1, p.2))
      else if headIs ']' (skipWs r) then some ([v], (skipWs r).tail)
      else none
/-- Parse the non-empty members of an object, up to and including the closing
brace. -/
def parseMembers : Nat → List Char → Option (List (List Char × JsonVal) × List Char)
  | 0, _ => none
  | fuel + 1, s =>
    if headIs '"' (skipWs s) then
      match parseStrBody (skipWs s).tail with
      | none => none
      | some (key, r1) =>
        if headIs ':' (skipWs r1) then
          match parseVal fuel (skipWs (skipWs r1).tail) with
          | none => none
          | some (v, r3) =>
            if headIs ',' (skipWs r3) then
              (parseMembers fuel (skipWs r3).tail).map (fun p => ((key, v) :: p.1, p.2))
            else if headIs '\x7d' (skipWs r3) then some ([(key, v)], (skipWs r3).tail)
            else none
        else none
    else none
end

/-- Python `json.loads` truthiness: `some v` when the whole text is a single
JSON value (with surrounding whitespace), `none` when `json.loads` raises
`JSONDecodeError`. -/
def parseJson (s : List Char) : Option JsonVal :=
  match parseVal (2 * s.length + 2) (skipWs s) with
  | some (v, rest) => if (skipWs rest).isEmpty then some v else none
  | none => none

/-- Python `d[k]` / `d.get(k)` on a JSON object's member list (keys are unique
in every object the model builds, and `find?` returns the first match as
Python's dict would). -/
def objGet (members : List (List Char × JsonVal)) (k : List Char) : Option JsonVal :=
  (members.find? (fun p => p.1 == k)).map Prod.snd

/-- Python `k in d`. -/
def objHasKey (members : List (List Char × JsonVal)) (k : List Char) : Bool :=
  (objGet members k).isSome

/-- Python `d[k] = v`: replace the value in place if the key exists, append the
pair otherwise. -/
def objSet (members : List (List Char × JsonVal)) (k : List Char) (v : JsonVal) :
    List (List Char × JsonVal) :=
  match members with
  | [] => [(k, v)]
  | (k', v') :: rest => if k' == k then (k', v) :: rest else (k', v') :: objSet rest k v

/-- Python `d.get(k, default)` on an arbitrary JSON value. -/
def jsonGetD (v : JsonVal) (k : List Char) (d : JsonVal) : JsonVal :=
  match v with
  | .obj members => (objGet members k).getD d
  | _ => d

/-! The Query Sanitizer (`wikidata_api.execute_sparql`, lines 186-225). -/

/-- The `allowed_keywords` list of `execute_sparql`. -/
def allowed_keywords : List (List Char) :=
  ["PREFIX".data, "SELECT".data, "ASK".data, "CONSTRUCT".data, "DESCRIBE".data,
   "INSERT".data, "FILTER".data, "BIND".data, "VALUES".data, "OPTIONAL".data,
   "UNION".data, "GRAPH".data, "SERVICE".data, "MINUS".data, "WHERE".data,
   "GROUP".data, "HAVING".data, "ORDER".data, "LIMIT".data, "OFFSET".data,
   "DATA".data]

/-- One iteration of the line filter of `execute_sparql`: `true` when the line is
appended to `filtered_query_lines`.  Blank lines and full-line comments are
skipped; then the keyword test on `first_word_upper` (Python
`stripped_line.upper().split(" ", 1)[0]`), the structural-character test, and the
likely-triple-pattern test are tried in order. -/
def keepLine (line_content : List Char) : Bool :=
  let stripped := pyStrip line_content
  if stripped.isEmpty || ['#'].isPrefixOf stripped then false
  else
    let first_word_upper := (pyUpper stripped).takeWhile (fun c => c != ' ')
    let is_likely_triple_pattern :=
      (hasSub "wd:".data stripped || hasSub "wdt:".data stripped ||
       hasSub "rdf:".data stripped || hasSub ":".data stripped ||
       hasSub "?".data stripped) &&
      (stripped.getLast? == some '.')
    if allowed_keywords.contains first_word_upper then true
    else if ['\x7b', '\x7d', ';', ','].any (fun c => stripped.contains c) then true
    else if is_likely_triple_pattern then true
    else false

/-- The `filtered_query_lines` list built by the sanitizer loop. -/
def filtered_query_lines (sparql_query : List Char) : List (List Char) :=
  (pySplitlines sparql_query).filter keepLine

/-- `processed_query = "\n".join(filtered_query_lines)`: the Sanitizer's output. -/
def processed_query (sparql_query : List Char) : List Char :=
  joinNL (filtered_query_lines sparql_query)

/-! The Prefix Injector (`wikidata_api.execute_sparql`, lines 228-249). -/

/-- The `prefixes` literal of `execute_sparql` (12-space indentation as in the
source). -/
def prefixesRaw : List Char :=
  ("\n            PREFIX wd: <http://www.wikidata.org/entity/>\n            PREFIX wdt: <http://www.wikidata.org/prop/direct/>\n            PREFIX p: <http://www.wikidata.org/prop/>\n            PREFIX ps: <http://www.wikidata.org/prop/statement/>\n            PREFIX wikibase: <http://wikiba.se/ontology#>\n            PREFIX bd: <http://www.bigdata.com/rdf#>\n            ").data

/-- Python `line.strip().upper().startswith("PREFIX")`. -/
def lineIsPrefixDecl (line : List Char) : Bool :=
  "PREFIX".data.isPrefixOf (pyUpper (pyStrip line))

/-- `full_query`: the Prefix Injector applied after the Sanitizer
(`execute_sparql`, lines 243-249).  The three-part condition and the two
generator expressions are transcribed literally. -/
def full_query (sparql_query : List Char) : List Char :=
  let lines := filtered_query_lines sparql_query
  let processed := processed_query sparql_query
  let has_non_prefix_lines :=
    (lines.filter (fun l => !(pyStrip l).isEmpty)).any (fun l => !(lineIsPrefixDecl l))
  if !processed.isEmpty && has_non_prefix_lines &&
      !((lines.filter lineIsPrefixDecl).any lineIsPrefixDecl)
  then pyStrip prefixesRaw ++ '\n' :: processed
  else processed

/-! The SPARQL Executor (`wikidata_api.execute_sparql`, lines 176-302).  The
remote endpoint is a stub: a function from the attempt index and the assembled
query text to the attempt's outcome.  Each failure constructor carries the
exception message `str(e)` and the `traceback.format_exc()` text; `otherErr`
additionally carries the exception class name `type(e).__name__`. -/

inductive AttemptResult where
  | success (results : JsonVal)
  | timeoutErr (msg tb : List Char)
  | connectionErr (msg tb : List Char)
  | queryBadFormed (msg tb : List Char)
  | otherErr (typeName msg tb : List Char)

/-- The `error_details` dict built in the three `except` branches of
`execute_sparql` (`tb = none` only in the post-loop fallback, which has no
`traceback` key). -/
structure ErrorDetails where
  error : List Char
  query : List Char
  error_type : List Char
  tb : Option (List Char)
deriving DecidableEq

/-- The `error_details` dict as a JSON object, in the insertion order of the
source. -/
def errorDetailsJson (d : ErrorDetails) : JsonVal :=
  match d.tb with
  | some t =>
    .obj [("error".data, .str d.error), ("query".data, .str d.query),
          ("error_type".data, .str d.error_type), ("traceback".data, .str t)]
  | none =>
    .obj [("error".data, .str d.error), ("query".data, .str d.query),
          ("error_type".data, .str d.error_type)]

/-- The f-string of the `(Timeout, ConnectionError)` branch. -/
def retryAttemptMsg (attempt : Nat) (msg : List Char) : List Char :=
  "Error executing query (attempt ".data ++ (Nat.repr (attempt + 1)).data ++
    "/3): ".data ++ msg

/-- The f-string of the generic `Exception` branch. -/
def unexpectedAttemptMsg (attempt : Nat) (msg : List Char) : List Char :=
  "An unexpected error occurred (attempt ".data ++ (Nat.repr (attempt + 1)).data ++
    "/3): ".data ++ msg

/-- The `error_details` built for a failing attempt, by exception branch.  The
`success` case is never consulted (the caller matches success first); it maps to
an empty placeholder. -/
def failureDetails (attempt : Nat) (sparql_query : List Char) : AttemptResult → ErrorDetails
  | .timeoutErr msg tb =>
    ⟨retryAttemptMsg attempt msg, sparql_query, "Timeout".data, some tb⟩
  | .connectionErr msg tb =>
    ⟨retryAttemptMsg attempt msg, sparql_query, "ConnectionError".data, some tb⟩
  | .queryBadFormed msg tb =>
    ⟨"SPARQL Query Syntax Error: ".data ++ msg, sparql_query, "QueryBadFormed".data, some tb⟩
  | .otherErr typeName msg tb =>
    ⟨unexpectedAttemptMsg attempt msg, sparql_query, typeName, some tb⟩
  | .success _ => ⟨[], [], [], none⟩

/-- Python `type(e).__name__` of a failing attempt (empty for success). -/
def failureTypeName : AttemptResult → List Char
  | .timeoutErr _ _ => "Timeout".data
  | .connectionErr _ _ => "ConnectionError".data
  | .queryBadFormed _ _ => "QueryBadFormed".data
  | .otherErr typeName _ _ => typeName
  | .success _ => []

/-- Python `str(e)` of a failing attempt (empty for success). -/
def failureMessage : AttemptResult → List Char
  | .timeoutErr msg _ => msg
  | .connectionErr msg _ => msg
  | .queryBadFormed msg _ => msg
  | .otherErr _ msg _ => msg
  | .success _ => []

/-- An attempt outcome the Executor retries: `Timeout`, `ConnectionError`, or
any other exception that is not `QueryBadFormed`. -/
def retryableFailure : AttemptResult → Bool
  | .timeoutErr _ _ => true
  | .connectionErr _ _ => true
  | .otherErr _ _ _ => true
  | _ => false

/-- What `execute_sparql` returns, before `json.dumps`: the converted results on
success, or an `error_details` dict. -/
inductive ExecReturn where
  | payload (results : JsonVal)
  | errorReturn (d : ErrorDetails)

/-- One run of `execute_sparql`, with the observable retry behaviour: the
return value, the number of attempts made, and the list of `time.sleep`
durations in seconds, in order. -/
structure RunResult where
  ret : ExecReturn
  attemptsMade : Nat
  sleeps : List Nat

/-- The `for attempt in range(MAX_RETRIES)` loop of `execute_sparql`.  `fuel` is
the number of loop iterations left (`3 - attempt`); the zero-fuel case is the
fall-through after the loop, returning the `MaxRetriesExceeded` fallback.
`backoff_time` starts at `INITIAL_BACKOFF = 1` and doubles after each sleep;
`attempt < 3 - 1` is the Python guard `attempt < MAX_RETRIES - 1`. -/
def execLoop (endpoint : Nat → List Char → AttemptResult) (sparql_query : List Char) :
    Nat → Nat → Nat → List Nat → RunResult
  | 0, attempt, _backoff_time, sleeps =>
    ⟨.errorReturn ⟨"Max retries reached. Failed to execute SPARQL query.".data,
        sparql_query, "MaxRetriesExceeded".data, none⟩, attempt, sleeps⟩
  | fuel + 1, attempt, backoff_time, sleeps =>
    match endpoint attempt (full_query sparql_query) with
    | .success results => ⟨.payload results, attempt + 1, sleeps⟩
    | .timeoutErr msg tb =>
      if attempt < 3 - 1 then
        execLoop endpoint sparql_query fuel (attempt + 1) (backoff_time * 2)
          (sleeps ++ [backoff_time])
      else
        ⟨.errorReturn (failureDetails attempt sparql_query (.timeoutErr msg tb)),
          attempt + 1, sleeps⟩
    | .connectionErr msg tb =>
      if attempt < 3 - 1 then
        execLoop endpoint sparql_query fuel (attempt + 1) (backoff_time * 2)
          (sleeps ++ [backoff_time])
      else
        ⟨.errorReturn (failureDetails attempt sparql_query (.connectionErr msg tb)),
          attempt + 1, sleeps⟩
    | .queryBadFormed msg tb =>
      ⟨.errorReturn (failureDetails attempt sparql_query (.queryBadFormed msg tb)),
        attempt + 1, sleeps⟩
    | .otherErr typeName msg tb =>
      if attempt < 3 - 1 then
        execLoop endpoint sparql_query fuel (attempt + 1) (backoff_time * 2)
          (sleeps ++ [backoff_time])
      else
        ⟨.errorReturn (failureDetails attempt sparql_query (.otherErr typeName msg tb)),
          attempt + 1, sleeps⟩

/-- `execute_sparql`, run against a stub endpoint, observed structurally. -/
def execute_sparql_run (endpoint : Nat → List Char → AttemptResult)
    (sparql_query : List Char) : RunResult :=
  execLoop endpoint sparql_query 3 0 1 []

/-- The string `execute_sparql` returns: `json.dumps(results)` on success,
`json.dumps(error_details)` on failure. -/
def execute_sparql (endpoint : Nat → List Char → AttemptResult)
    (sparql_query : List Char) : List Char :=
  match (execute_sparql_run endpoint sparql_query).ret with
  | .payload results => dumpVal results
  | .errorReturn d => dumpVal (errorDetailsJson d)

/-! Stub endpoints used by concrete witnesses and counterexamples. -/

/-- A stub endpoint that fails every attempt with a timeout. -/
def epAllTimeout : Nat → List Char → AttemptResult :=
  fun _ _ => .timeoutErr "boom".data "tb".data

/-- A stub endpoint that fails twice with a connection error and succeeds on the
third call. -/
def epFailTwice : Nat → List Char → AttemptResult :=
  fun n _ => if n < 2 then .connectionErr "connection refused".data "tb".data
             else .success .null

/-- A stub endpoint that raises a bad-query-syntax error. -/
def epBadFormed : Nat → List Char → AttemptResult :=
  fun _ _ => .queryBadFormed "bad syntax".data "tb".data

/-! A regular-expression engine for the patterns `_validate_sparql_query` uses
(`server_sse.py`, lines 241-405): character classes, literals (case-sensitive
or case-insensitive), greedy class stars and pluses, one group star,
alternation, negative lookahead, and the `$` anchor (end of string or just
before a final newline, as Python `$` without MULTILINE).  Matching is
existential — "does some way of matching exist here" — which coincides with
the truthiness of `re.search`: greedy versus lazy exploration affects which
match is reported, never whether one exists.  The matcher is fueled so that it
computes by kernel reduction; one fuel unit is spent per pattern node entered,
every group-star iteration must consume input, and class stars spend no fuel,
so `(length + 1) * (size + 2)` fuel strictly exceeds any call depth. -/

inductive RE where
  | strCS (cs : List Char)
  | strCI (cs : List Char)
  | cls (p : Char → Bool)
  | clsStar (p : Char → Bool)
  | clsPlus (p : Char → Bool)
  | seq (a b : RE)
  | alt (a b : RE)
  | groupStar (a : RE)
  | nla (a : RE)
  | eol

/-- Consume a case-sensitive literal, returning the rest. -/
def matchCS : List Char → List Char → Option (List Char)
  | [], s => some s
  | _ :: _, [] => none
  | p :: ps, c :: s => if p == c then matchCS ps s else none

/-- Consume a case-insensitive literal (stored lowercase), returning the rest. -/
def matchCI : List Char → List Char → Option (List Char)
  | [], s => some s
  | _ :: _, [] => none
  | p :: ps, c :: s => if p == pyToLower c then matchCI ps s else none

/-- Existential star over a character class, in continuation style. -/
def starCls (p : Char → Bool) : List Char → (List Char → Bool) → Bool
  | s, k =>
    k s || (match s with
            | [] => false
            | c :: s' => p c && starCls p s' k)

def sizeRE : RE → Nat
  | .seq a b => sizeRE a + sizeRE b + 1
  | .alt a b => sizeRE a + sizeRE b + 1
  | .groupStar a => sizeRE a + 1
  | .nla a => sizeRE a + 1
  | _ => 1

def reMatch : Nat → RE → List Char → (List Char → Bool) → Bool
  | 0, _, _, _ => false
  | fuel + 1, r, s, k =>
    match r with
    | .strCS cs => (matchCS cs s).elim false k
    | .strCI cs => (matchCI cs s).elim false k
    | .cls p => (match s with | [] => false | c :: s' => p c && k s')
    | .clsStar p => starCls p s k
    | .clsPlus p => (match s with | [] => false | c :: s' => p c && starCls p s' k)
    | .seq a b => reMatch fuel a s (fun s2 => reMatch fuel b s2 k)
    | .alt a b => reMatch fuel a s k || reMatch fuel b s k
    | .groupStar a =>
      k s || reMatch fuel a s
        (fun s2 => decide (s2.length < s.length) && reMatch fuel (.groupStar a) s2 k)
    | .nla a => !(reMatch fuel a s (fun _ => true)) && k s
    | .eol => (s.isEmpty || s == ['\n']) && k s

/-- Does the pattern match starting exactly here? -/
def reMatchTop (r : RE) (s : List Char) : Bool :=
  reMatch ((s.length + 1) * (sizeRE r + 2)) r s (fun _ => true)

/-- Python `re.search(...)` truthiness: the pattern matches at some position. -/
def reSearch (r : RE) : List Char → Bool
  | [] => reMatchTop r []
  | c :: s => reMatchTop r (c :: s) || reSearch r s

/-! The regexes of `_validate_sparql_query`, transcribed pattern by pattern.
All but the language-tag and datatype patterns carry `re.IGNORECASE`. -/

/-- Pattern `SELECT\s*(?![?*\w(])`. -/
def reSelectBad : RE :=
  .seq (.strCI "select".data) (.seq (.clsStar pyIsSpace)
    (.nla (.cls (fun c => c == '?' || c == '*' || isWordCh c || c == '('))))

/-- Pattern `WHERE\s*(?!\{)`. -/
def reWhereBad : RE :=
  .seq (.strCI "where".data) (.seq (.clsStar pyIsSpace) (.nla (.cls (fun c => c == '\x7b'))))

/-- Pattern `WHERE\s*DATA\s*\{`. -/
def reWhereData : RE :=
  .seq (.strCI "where".data) (.seq (.clsStar pyIsSpace)
    (.seq (.strCI "data".data) (.seq (.clsStar pyIsSpace) (.cls (fun c => c == '\x7b')))))

/-- Pattern `PREFIX\s+\w*:\s*(?!<)`. -/
def rePrefixNoLt : RE :=
  .seq (.strCI "prefix".data) (.seq (.clsPlus pyIsSpace) (.seq (.clsStar isWordCh)
    (.seq (.cls (fun c => c == ':')) (.seq (.clsStar pyIsSpace)
      (.nla (.cls (fun c => c == '<')))))))

/-- Pattern `PREFIX\s+\w*:\s*<[^>]*$`. -/
def rePrefixOpenUri : RE :=
  .seq (.strCI "prefix".data) (.seq (.clsPlus pyIsSpace) (.seq (.clsStar isWordCh)
    (.seq (.cls (fun c => c == ':')) (.seq (.clsStar pyIsSpace)
      (.seq (.cls (fun c => c == '<')) (.seq (.clsStar (fun c => c != '>')) .eol))))))

/-- Pattern `FILTER\s*\((?!\s*(NOT\s+EXISTS|EXISTS)\s*\{)`. -/
def reFilterOuter : RE :=
  .seq (.strCI "filter".data) (.seq (.clsStar pyIsSpace) (.seq (.cls (fun c => c == '('))
    (.nla (.seq (.clsStar pyIsSpace)
      (.seq (.alt (.seq (.strCI "not".data) (.seq (.clsPlus pyIsSpace) (.strCI "exists".data)))
                  (.strCI "exists".data))
        (.seq (.clsStar pyIsSpace) (.cls (fun c => c == '\x7b'))))))))

/-- Pattern `FILTER\s*\(\s*\)`. -/
def reFilterEmpty : RE :=
  .seq (.strCI "filter".data) (.seq (.clsStar pyIsSpace) (.seq (.cls (fun c => c == '('))
    (.seq (.clsStar pyIsSpace) (.cls (fun c => c == ')')))))

/-- Pattern `(LIMIT|OFFSET)\s+(?!\d+)`. -/
def reLimitOffsetBad : RE :=
  .seq (.alt (.strCI "limit".data) (.strCI "offset".data))
    (.seq (.clsPlus pyIsSpace) (.nla (.clsPlus isDigitCh)))

/-- Pattern `ORDER\s+BY\s+(?!(ASC|DESC)\s*\(|\?\w+|IRI|STR|LANG|DATATYPE)`. -/
def reOrderByBad : RE :=
  .seq (.strCI "order".data) (.seq (.clsPlus pyIsSpace) (.seq (.strCI "by".data)
    (.seq (.clsPlus pyIsSpace)
      (.nla (.alt (.seq (.alt (.strCI "asc".data) (.strCI "desc".data))
                        (.seq (.clsStar pyIsSpace) (.cls (fun c => c == '('))))
              (.alt (.seq (.cls (fun c => c == '?')) (.clsPlus isWordCh))
                (.alt (.strCI "iri".data) (.alt (.strCI "str".data)
                  (.alt (.strCI "lang".data) (.strCI "datatype".data))))))))))

/-- Pattern `GROUP\s+BY\s+(?!\?\w+)`. -/
def reGroupByBad : RE :=
  .seq (.strCI "group".data) (.seq (.clsPlus pyIsSpace) (.seq (.strCI "by".data)
    (.seq (.clsPlus pyIsSpace)
      (.nla (.seq (.cls (fun c => c == '?')) (.clsPlus isWordCh))))))

/-- Pattern `@[a-zA-Z]{2,}(?:-[a-zA-Z0-9]+)*\s*(")`, searched case-sensitively. -/
def reLangTagQuote : RE :=
  .seq (.cls (fun c => c == '@')) (.seq (.cls isAlphaCh) (.seq (.cls isAlphaCh)
    (.seq (.clsStar isAlphaCh)
      (.seq (.groupStar (.seq (.cls (fun c => c == '-')) (.clsPlus isAlnumCh)))
        (.seq (.clsStar pyIsSpace) (.cls (fun c => c == '"')))))))

/-- Pattern `\^\^<[^>]*>\s*(")`, searched case-sensitively. -/
def reDatatypeQuote : RE :=
  .seq (.cls (fun c => c == '^')) (.seq (.cls (fun c => c == '^'))
    (.seq (.cls (fun c => c == '<')) (.seq (.clsStar (fun c => c != '>'))
      (.seq (.cls (fun c => c == '>')) (.seq (.clsStar pyIsSpace)
        (.cls (fun c => c == '"')))))))

/-- Python `re.sub(r"#.*$", "", query, flags=re.MULTILINE)`: drop everything
from each `#` to the end of its line.  The Boolean is the "inside a comment"
state. -/
def stripCommentsAcc : List Char → Bool → List Char
  | [], _ => []
  | c :: rest, inComment =>
    if c == '\n' then c :: stripCommentsAcc rest false
    else if inComment then stripCommentsAcc rest true
    else if c == '#' then stripCommentsAcc rest true
    else c :: stripCommentsAcc rest false

def stripComments (s : List Char) : List Char := stripCommentsAcc s false

/-! The Query Validator `_validate_sparql_query` (`server_sse.py`, lines
241-405), one definition per check, chained in source order. -/

/-- The validation verdict dict: `is_valid`, and the `error` / `suggestion`
keys present only on failure. -/
structure Verdict where
  is_valid : Bool
  error : Option (List Char)
  suggestion : Option (List Char)
deriving DecidableEq

def bracketMismatchVerdict (c : Char) : Verdict :=
  ⟨false,
   some ("Unbalanced closing bracket/parenthesis/brace: \x27".data ++ [c] ++ "\x27".data),
   some "Ensure all opening brackets, parentheses, and braces have a matching closing one in the correct order.".data⟩

def bracketUnclosedVerdict (c : Char) : Verdict :=
  ⟨false,
   some ("Unclosed opening bracket/parenthesis/brace: \x27".data ++ [c] ++ "\x27".data),
   some "Ensure all opening brackets, parentheses, and braces are closed.".data⟩

/-- `brackets_map` keys. -/
def bracketsOpen : List Char := ['(', '[', '\x7b']

/-- `brackets_map.values()`. -/
def bracketsClose : List Char := [')', ']', '\x7d']

/-- `brackets_map[...]`. -/
def closerOf (c : Char) : Char :=
  if c == '(' then ')' else if c == '[' then ']' else '\x7d'

/-- The character loop of check 1, with `open_brackets` pushed at the head. -/
def bracketLoop : List Char → List Char → Option Verdict
  | [], open_brackets =>
    match open_brackets with
    | [] => none
    | top :: _ => some (bracketUnclosedVerdict top)
  | c :: rest, open_brackets =>
    if bracketsOpen.contains c then bracketLoop rest (c :: open_brackets)
    else if bracketsClose.contains c then
      match open_brackets with
      | [] => some (bracketMismatchVerdict c)
      | top :: remaining =>
        if closerOf top == c then bracketLoop rest remaining
        else some (bracketMismatchVerdict c)
    else bracketLoop rest open_brackets

def check_brackets (query : List Char) : Option Verdict := bracketLoop query []

def check_select (query : List Char) : Option Verdict :=
  if reSearch reSelectBad query then
    some ⟨false, some "Invalid SELECT clause.".data,
      some "SELECT keyword should be followed by variables (e.g., ?var), \x27*\x27, or aggregate functions (e.g., COUNT(?var)).".data⟩
  else none

def check_where (query : List Char) : Option Verdict :=
  if reSearch reWhereBad query && !(reSearch reWhereData query) then
    some ⟨false, some "Invalid WHERE clause.".data,
      some "WHERE keyword should be followed by a graph pattern enclosed in curly braces \x7b\x7d (e.g., WHERE \x7b ?s ?p ?o . \x7d).".data⟩
  else none

def check_prefix_uri (query : List Char) : Option Verdict :=
  if reSearch rePrefixNoLt query then
    some ⟨false, some "Invalid PREFIX declaration.".data,
      some "PREFIX declarations should use URIs enclosed in < > (e.g., PREFIX foaf: <http://xmlns.com/foaf/0.1/>).".data⟩
  else none

def check_prefix_close (query : List Char) : Option Verdict :=
  if reSearch rePrefixOpenUri query then
    some ⟨false, some "Incomplete URI in PREFIX declaration.".data,
      some "Ensure URIs in PREFIX declarations are properly closed with \x27>\x27.".data⟩
  else none

/-- The FILTER check: under the outer not-an-EXISTS-form search, only the empty
`FILTER ( )` search returns a verdict; the operator checks below it in the
source are `pass`. -/
def check_filter (query : List Char) : Option Verdict :=
  if reSearch reFilterOuter query then
    if reSearch reFilterEmpty query then
      some ⟨false, some "Empty FILTER clause.".data,
        some "FILTER clauses must contain an expression (e.g., FILTER(?age > 18)).".data⟩
    else none
  else none

def check_limit_offset (query : List Char) : Option Verdict :=
  if reSearch reLimitOffsetBad query then
    some ⟨false, some "Invalid LIMIT or OFFSET clause.".data,
      some "LIMIT and OFFSET keywords must be followed by a non-negative integer.".data⟩
  else none

def check_order_by (query : List Char) : Option Verdict :=
  if reSearch reOrderByBad query then
    some ⟨false, some "Invalid ORDER BY clause.".data,
      some "ORDER BY should be followed by a variable (e.g., ?name), or a function call like ASC(?date) or DESC(?value).".data⟩
  else none

def check_group_by (query : List Char) : Option Verdict :=
  if reSearch reGroupByBad query then
    some ⟨false, some "Invalid GROUP BY clause.".data,
      some "GROUP BY should be followed by one or more variables (e.g., GROUP BY ?type).".data⟩
  else none

def unbalancedDoubleQuotesVerdict : Verdict :=
  ⟨false, some "Unbalanced double quotes.".data,
   some "Ensure all string literals using double quotes are properly opened and closed. Escape internal quotes if necessary (e.g., \\\" ).".data⟩

def unbalancedSingleQuotesVerdict : Verdict :=
  ⟨false, some "Unbalanced single quotes.".data,
   some "Ensure all string literals using single quotes are properly opened and closed. Escape internal quotes if necessary (e.g., \\\x27 ).".data⟩

/-- The double-quote check: raw count odd, then the language-tag and datatype
bypass searches, then the comment-stripped recount. -/
def check_double_quotes (query : List Char) : Option Verdict :=
  if (query.count '"') % 2 != 0 then
    if !(reSearch reLangTagQuote query) && !(reSearch reDatatypeQuote query) then
      if ((stripComments query).count '"') % 2 != 0 then
        some unbalancedDoubleQuotesVerdict
      else none
    else none
  else none

/-- The single-quote check: raw count odd, then the comment-stripped recount —
with no language-tag or datatype bypass. -/
def check_single_quotes (query : List Char) : Option Verdict :=
  if (query.count '\x27') % 2 != 0 then
    if ((stripComments query).count '\x27') % 2 != 0 then
      some unbalancedSingleQuotesVerdict
    else none
  else none

/-- `_validate_sparql_query`: the checks in source order, first failure wins;
the final missing-dot loop of the source only ever executes `pass` and
contributes nothing. -/
def validate_sparql_query (query : List Char) : Verdict :=
  (check_brackets query <|> check_select query <|> check_where query <|>
   check_prefix_uri query <|> check_prefix_close query <|> check_filter query <|>
   check_limit_offset query <|> check_order_by query <|> check_group_by query <|>
   check_double_quotes query <|> check_single_quotes query).getD ⟨true, none, none⟩

/-! Spec-side formulations.  Definitions below named `spec...` follow the words
of the specification claims, for comparison with the source-side definitions
above; they are not translations of the code. -/

/-- Spec side, claim C5: a line is dropped when it is blank or starts with
the character `#` (read literally, without stripping first). -/
def specDropLine (line : List Char) : Bool :=
  (pyStrip line).isEmpty || ['#'].isPrefixOf line

/-- Spec side, claim C5: the first whitespace-delimited token of the line,
uppercased. -/
def specFirstTokenWS (line : List Char) : List Char :=
  pyUpper ((pyStrip line).takeWhile (fun c => !(pyIsSpace c)))

/-- Spec side, claim C5: the retention rule as the claim states it. -/
def specRetainLine (line : List Char) : Bool :=
  let stripped := pyStrip line
  allowed_keywords.contains (specFirstTokenWS line) ||
  (['\x7b', '\x7d', ';', ','].any (fun c => stripped.contains c)) ||
  ((hasSub "wd:".data stripped || hasSub "wdt:".data stripped ||
    hasSub "rdf:".data stripped || hasSub ":".data stripped ||
    hasSub "?".data stripped) &&
   (stripped.getLast? == some '.'))

/-- Spec side, claim C5: a line survives the Sanitizer exactly when it is not
dropped and the retention rule holds. -/
def specKeepLine (line : List Char) : Bool :=
  !(specDropLine line) && specRetainLine line

/-- Amended claim C5: the rule the code actually implements.  Differences from
the claim: the drop test looks at the stripped line, and the keyword token is
delimited by the space character only (a tab does not delimit it). -/
def amendedKeepLine (line : List Char) : Bool :=
  let stripped := pyStrip line
  (!(stripped.isEmpty || ['#'].isPrefixOf stripped)) &&
  (allowed_keywords.contains (pyUpper (stripped.takeWhile (fun c => c != ' '))) ||
   (['\x7b', '\x7d', ';', ','].any (fun c => stripped.contains c)) ||
   ((stripped.contains ':' || stripped.contains '?') &&
    (stripped.getLast? == some '.')))

/-- Spec side, claim C6: a retained line "starts with PREFIX
(case-insensitive)", read literally on the line as retained (the code retains
lines with their original indentation). -/
def specLineStartsPrefixCI (line : List Char) : Bool :=
  "PREFIX".data.isPrefixOf (pyUpper line)

/-- Spec side, claim C6: the injection condition as the claim states it. -/
def specInjectCond (q : List Char) : Bool :=
  let lines := filtered_query_lines q
  !(processed_query q).isEmpty &&
  lines.any (fun l => !(specLineStartsPrefixCI l)) &&
  !(lines.any specLineStartsPrefixCI)

/-- Amended claim C6: the injection condition with the PREFIX test applied to
the stripped form of each retained line, as the code does. -/
def amendedInjectCond (q : List Char) : Bool :=
  !(processed_query q).isEmpty &&
  (filtered_query_lines q).any (fun l => !(lineIsPrefixDecl l)) &&
  !((filtered_query_lines q).any lineIsPrefixDecl)

/-- Spec side, claim C7: the delimiter matcher as the claim describes it — a
stack of (opener, expected closer) pairs; `some (true, c)` reports an unmatched
or wrongly-ordered closer `c`, `some (false, o)` an opener `o` left unclosed at
the end of the string. -/
def specDelimScan : List Char → List (Char × Char) → Option (Bool × Char)
  | [], [] => none
  | [], (o, _) :: _ => some (false, o)
  | c :: rest, stack =>
    if c == '(' then specDelimScan rest (('(', ')') :: stack)
    else if c == '[' then specDelimScan rest (('[', ']') :: stack)
    else if c == '\x7b' then specDelimScan rest (('\x7b', '\x7d') :: stack)
    else if c == ')' || c == ']' || c == '\x7d' then
      match stack with
      | [] => some (true, c)
      | (_, expected) :: stack' =>
        if expected == c then specDelimScan rest stack' else some (true, c)
    else specDelimScan rest stack

/-- Spec side, claim C7: the input has unbalanced delimiters, with the
offending character. -/
def specUnbalanced (q : List Char) : Option (Bool × Char) := specDelimScan q []

/-- Spec side, claim C8: a language tag, without the trailing quote. -/
def reLangTagOnly : RE :=
  .seq (.cls (fun c => c == '@')) (.seq (.cls isAlphaCh) (.seq (.cls isAlphaCh)
    (.seq (.clsStar isAlphaCh)
      (.seq (.groupStar (.seq (.cls (fun c => c == '-')) (.clsPlus isAlnumCh)))
        (.clsStar pyIsSpace)))))

/-- Spec side, claim C8: a datatype annotation, without the trailing quote. -/
def reDatatypeOnly : RE :=
  .seq (.cls (fun c => c == '^')) (.seq (.cls (fun c => c == '^'))
    (.seq (.cls (fun c => c == '<')) (.seq (.clsStar (fun c => c != '>'))
      (.seq (.cls (fun c => c == '>')) (.clsStar pyIsSpace)))))

/-- Does the pattern match this text exactly (consuming all of it)? -/
def matchesWhole (r : RE) (s : List Char) : Bool :=
  reMatch ((s.length + 1) * (sizeRE r + 2)) r s (fun rest => rest.isEmpty)

/-- Does some suffix of the text match the pattern exactly? -/
def anySuffixWhole (r : RE) : List Char → Bool
  | [] => matchesWhole r []
  | c :: s => matchesWhole r (c :: s) || anySuffixWhole r s

/-- Spec side, claim C8: a quote here is "adjacent to a language tag or
datatype annotation" when the text before it ends with one. -/
def specQuoteAdjacent (pre : List Char) : Bool :=
  anySuffixWhole reLangTagOnly pre || anySuffixWhole reDatatypeOnly pre

/-- Spec side, claim C8: count the occurrences of `quote`, excluding those
adjacent to a language tag or datatype annotation; `pre` is the text already
passed. -/
def specQuoteCountExcl (quote : Char) : List Char → List Char → Nat
  | _pre, [] => 0
  | pre, c :: rest =>
    (if c == quote && !(specQuoteAdjacent pre) then 1 else 0) +
      specQuoteCountExcl quote (pre ++ [c]) rest

/-- Amended claim C8: the double-quote failure condition the code implements —
raw count odd, no language-tag and no datatype pattern anywhere in the raw
query, and comment-stripped count still odd. -/
def amendedDqBad (q : List Char) : Bool :=
  ((q.count '"') % 2 != 0) && !(reSearch reLangTagQuote q) &&
  !(reSearch reDatatypeQuote q) && (((stripComments q).count '"') % 2 != 0)

/-- Amended claim C8: the single-quote failure condition the code implements —
raw count odd and comment-stripped count odd, with no exclusion of any kind. -/
def amendedSqBad (q : List Char) : Bool :=
  ((q.count '\x27') % 2 != 0) && (((stripComments q).count '\x27') % 2 != 0)

/-! The Tool Façade (`server_sse.py`).  The network-facing helpers of
`wikidata_api.py` (`search_entity`, `search_property`, `get_entity_metadata`)
are stubs: their return value is a parameter.  `search_entity` and
`search_property` always return a Python `str`, so the `isinstance(result, str)`
tests in the tools are always true; `get_entity_metadata` always returns a
`dict`, modelled as an arbitrary `JsonVal` parameter. -/

/-- Python `isinstance(v, dict) and "error" in v`. -/
def hasErrKey : JsonVal → Bool
  | .obj ms => objHasKey ms "error".data
  | _ => false

/-- Python `isinstance(v, dict) and "error" in v and "error_type" in v`. -/
def errShaped : JsonVal → Bool
  | .obj ms => objHasKey ms "error".data && objHasKey ms "error_type".data
  | _ => false

/-- Python `v == "s"` for a parsed JSON value against a string literal. -/
def jsonEqStr (v : JsonVal) (s : List Char) : Bool :=
  match v with
  | .str t => t == s
  | _ => false

/-- An optional string as the JSON value `json.dumps` would serialize
(`None` becomes `null`). -/
def optStrJson : Option (List Char) → JsonVal
  | some s => .str s
  | none => .null

/-- Python `str()` of a parsed JSON value, as interpolated into f-strings.
For strings it is the string itself, for `None`/`True`/`False` the Python
names, for numbers the lexeme.  For parsed lists and dicts Python `str()`
uses `repr` with single quotes; the model uses the JSON text instead — the
tools interpolate these values only into human-readable `suggestion` text, so
no claim depends on that wording. -/
def pyStrJ : JsonVal → List Char
  | .str s => s
  | .null => "None".data
  | .bool true => "True".data
  | .bool false => "False".data
  | .num lex => lex
  | v => dumpVal v

/-- `search_wikidata_entity` (`server_sse.py`, lines 38-62); `result` is the
string returned by the stubbed `search_entity`. -/
def search_wikidata_entity (query result : List Char) : List Char :=
  if "Error searching for entity:".data.isPrefixOf result then
    dumpVal (.obj
      [("error".data, .str "Failed to search Wikidata entity.".data),
       ("details".data, .str result),
       ("suggestion".data,
        .str "Check your network connection or try a different search query.".data)])
  else if result == "No entity found".data then
    dumpVal (.obj
      [("error".data, .str "No entity found on Wikidata.".data),
       ("details".data,
        .str ("The query \x27".data ++ query ++ "\x27 did not return any results.".data)),
       ("suggestion".data,
        .str "Try alternative spellings, more general or specific terms, or ensure the entity exists on Wikidata.".data)])
  else result

/-- `search_wikidata_property` (`server_sse.py`, lines 64-88); `result` is the
string returned by the stubbed `search_property`. -/
def search_wikidata_property (query result : List Char) : List Char :=
  if "Error searching for property:".data.isPrefixOf result then
    dumpVal (.obj
      [("error".data, .str "Failed to search Wikidata property.".data),
       ("details".data, .str result),
       ("suggestion".data,
        .str "Check your network connection or try a different search query.".data)])
  else if result == "No property found".data then
    dumpVal (.obj
      [("error".data, .str "No property found on Wikidata.".data),
       ("details".data,
        .str ("The query \x27".data ++ query ++
          "\x27 did not return any results for a property.".data)),
       ("suggestion".data,
        .str "Try alternative spellings, or ensure the property exists on Wikidata (e.g., check common properties list).".data)])
  else result

/-- `get_wikidata_metadata` (`server_sse.py`, lines 90-107); `metadata` is the
dict returned by the stubbed `get_entity_metadata`. -/
def get_wikidata_metadata (entity_id : List Char) (metadata : JsonVal) : List Char :=
  match metadata with
  | .obj ms =>
    if objHasKey ms "error".data then
      dumpVal (.obj
        [("error".data,
          .str ("Failed to get metadata for entity ID \x27".data ++ entity_id ++
            "\x27.".data)),
         ("details".data, (objGet ms "error".data).getD .null),
         ("suggestion".data,
          .str "The entity ID might be invalid, the entity may not exist, or there could be an issue with the metadata service.".data)])
    else dumpVal metadata
  | _ => dumpVal metadata

/-- The SPARQL query `get_entity_properties` builds (`wikidata_api.py`,
lines 133-161). -/
def propsQuery (entity_id : List Char) : List Char :=
  "\n    # Fetches properties and their values for a given entity.\n    # Uses a subquery to get core data before fetching labels for efficiency.\n    SELECT ?property ?propertyLabel ?value ?valueLabel\n    WHERE \x7b\n      \x7b\n        SELECT ?property ?value\n        WHERE \x7b\n          # Core query to get property-value pairs for the entity\n          wd:".data ++
  entity_id ++
  " ?p ?statement. # ?p is the property predicate\n          ?statement ?ps ?value.      # ?ps is the property statement value predicate\n\n          # Link predicates to actual property entities\n          ?property wikibase:claim ?p.\n          ?property wikibase:statementProperty ?ps.\n        \x7d\n        LIMIT 50\n      \x7d\n      # Apply labels to the results of the subquery\n      SERVICE wikibase:label \x7b bd:serviceParam wikibase:language \"en\". \x7d\n    \x7d\n    ".data

/-- `get_entity_properties` (`wikidata_api.py`, lines 127-163): it parses the
string `execute_sparql` returns and returns the parsed Python value; a parse
failure raises `json.JSONDecodeError` out of the function. -/
def get_entity_properties (endpoint : Nat → List Char → AttemptResult)
    (entity_id : List Char) : Except (List Char) JsonVal :=
  match parseJson (execute_sparql endpoint (propsQuery entity_id)) with
  | some v => .ok v
  | none => .error "JSONDecodeError".data

/-- `get_wikidata_properties` (`server_sse.py`, lines 109-156).  The call to
`get_entity_properties` sits outside the `try`, so its exceptions propagate;
inside the `try`, `json.loads(properties_json_str)` is applied to the value
`get_entity_properties` returned — a Python `str` is parsed (with
`json.JSONDecodeError` caught), while any other value makes `json.loads`
raise `TypeError`, which the `except json.JSONDecodeError` clause does not
catch.  `.error` carries the name of the uncaught exception. -/
def get_wikidata_properties (endpoint : Nat → List Char → AttemptResult)
    (entity_id : List Char) : Except (List Char) (List Char) :=
  match get_entity_properties endpoint entity_id with
  | .error e => .error e
  | .ok properties_json_str =>
    match properties_json_str with
    | .str s =>
      match parseJson s with
      | none =>
        .ok (dumpVal (.obj
          [("error".data,
            .str "Received non-JSON response when fetching entity properties.".data),
           ("details".data, .str s),
           ("suggestion".data,
            .str "This indicates an unexpected response format from the properties retrieval function.".data)]))
      | some properties_data =>
        if errShaped properties_data then
          let error_type := jsonGetD properties_data "error_type".data .null
          let suggestion :=
            if jsonEqStr error_type "QueryBadFormed".data then
              "The underlying SPARQL query for fetching properties might be malformed (unlikely for default queries) or there\x27s an issue with the entity ID affecting the query.".data
            else if jsonEqStr error_type "Timeout".data ||
                jsonEqStr error_type "ConnectionError".data ||
                jsonEqStr error_type "MaxRetriesExceeded".data then
              "Fetching properties failed due to network issues or timeout. Please try again later.".data
            else
              "Review the error details. If it\x27s a query issue, the default query for properties might be failing for this entity.".data
          .ok (dumpVal (.obj
            [("error".data,
              .str ("Failed to get properties for entity ID \x27".data ++ entity_id ++
                "\x27.".data)),
             ("details".data, jsonGetD properties_data "error".data .null),
             ("error_type".data, error_type),
             ("original_query".data, jsonGetD properties_data "query".data .null),
             ("suggestion".data, .str suggestion)]))
        else .ok s
    | _ => .error "TypeError".data

/-- `execute_wikidata_sparql` (`server_sse.py`, lines 158-240).  The outer
`try/except Exception` never fires in the model (the modelled body raises
nothing), so it is omitted; the `print` logging is ignored. -/
def execute_wikidata_sparql (endpoint : Nat → List Char → AttemptResult)
    (sparql_query : List Char) : List Char :=
  let validation_result := validate_sparql_query sparql_query
  if !validation_result.is_valid then
    dumpVal (.obj
      [("error".data, .str "SPARQL query validation failed".data),
       ("details".data, optStrJson validation_result.error),
       ("suggestion".data, optStrJson validation_result.suggestion)])
  else
    let raw_result := execute_sparql endpoint sparql_query
    match parseJson raw_result with
    | none =>
      dumpVal (.obj
        [("error".data, .str "Received non-JSON response from SPARQL execution.".data),
         ("details".data, .str raw_result),
         ("suggestion".data,
          .str "Check the SPARQL endpoint or the API\x27s response format.".data)])
    | some result_data =>
      if errShaped result_data then
        let error_msg := jsonGetD result_data "error".data
          (.str "Unknown error from wikidata_api".data)
        let error_type := jsonGetD result_data "error_type".data
          (.str "UnknownErrorType".data)
        let original_query := jsonGetD result_data "query".data (.str sparql_query)
        let suggestion :=
          if jsonEqStr error_type "QueryBadFormed".data then
            "The SPARQL query syntax is incorrect. Please check for typos, keyword misuse, or structural issues. Refer to SPARQL documentation or use a SPARQL validator for assistance.".data
          else if jsonEqStr error_type "Timeout".data then
            "The query execution timed out. Try simplifying the query, adding or adjusting LIMIT/OFFSET clauses, or reducing its complexity. Executing it at a later time might also help.".data
          else if jsonEqStr error_type "ConnectionError".data then
            "A network connection error occurred while trying to reach the SPARQL endpoint. Please check your internet connection and try again later.".data
          else if jsonEqStr error_type "MaxRetriesExceeded".data then
            "The query failed after multiple retries due to repeated \x27".data ++
              pyStrJ (jsonGetD result_data "original_error_type".data
                (.str "transient issues".data)) ++
              "\x27. This could be due to network issues or endpoint overload. Try again later. Original error: ".data ++
              pyStrJ error_msg
          else if hasSub "Error executing query".data (pyStrJ error_msg) then
            "An error occurred during query execution. Check the syntax and ensure all identifiers (URIs, variables) are correct.".data
          else
            "Please review your query and the error details.".data
        dumpVal (.obj
          [("error".data, .str "SPARQL query execution failed.".data),
           ("original_error_message".data, error_msg),
           ("error_type".data, error_type),
           ("query".data, original_query),
           ("suggestion".data, .str suggestion)])
      else raw_result

/-- The specific-property facts query of `find_entity_facts` (`server_sse.py`,
lines 466-472). -/
def factsQueryProp (entity_id property_id : List Char) : List Char :=
  "\n        SELECT ?value ?valueLabel\n        WHERE \x7b\n          wd:".data ++
  entity_id ++ " wdt:".data ++ property_id ++
  " ?value.\n          SERVICE wikibase:label \x7b bd:serviceParam wikibase:language \"en\". \x7d\n        \x7d\n        ".data

/-- The general facts query of `find_entity_facts` (`server_sse.py`,
lines 474-492). -/
def factsQueryGen (entity_id : List Char) : List Char :=
  "\n        # General entity info: Fetch core data then labels for efficiency.\n        SELECT ?property ?propertyLabel ?value ?valueLabel\n        WHERE \x7b\n          \x7b\n            SELECT ?property ?value\n            WHERE \x7b\n              wd:".data ++
  entity_id ++
  " ?p ?statement.\n              ?statement ?ps ?value.\n\n              ?property wikibase:claim ?p.\n              ?property wikibase:statementProperty ?ps.\n            \x7d\n            LIMIT 10\n          \x7d\n          SERVICE wikibase:label \x7b bd:serviceParam wikibase:language \"en\". \x7d\n        \x7d\n        ".data

/-- The tail of `find_entity_facts` after entity id, metadata and optional
property id have been resolved (`server_sse.py`, lines 460-519): build the
SPARQL query, run it through `execute_wikidata_sparql`, and combine. -/
def findFactsFinish (endpoint : Nat → List Char → AttemptResult)
    (entity_name : List Char) (property_name : Option (List Char))
    (entity_id : List Char) (metadata : JsonVal)
    (property_id : Option (List Char)) : List Char :=
  let sparql_query :=
    match property_id with
    | some pid => factsQueryProp entity_id pid
    | none => factsQueryGen entity_id
  let facts_json_str := execute_wikidata_sparql endpoint sparql_query
  match parseJson facts_json_str with
  | none =>
    dumpVal (.obj
      [("error".data,
        .str "Failed to parse SPARQL result from internal call to execute_wikidata_sparql.".data),
       ("details".data,
        .str "The response from execute_wikidata_sparql was not valid JSON.".data),
       ("context".data, .obj
         [("entity_id".data, .str entity_id),
          ("property_id".data, optStrJson property_id),
          ("query".data, .str sparql_query)]),
       ("suggestion".data,
        .str "This indicates an internal issue with the server\x27s SPARQL execution tool chain.".data)])
  | some facts_data =>
    dumpVal (.obj
      [("entity".data, metadata),
       ("property".data,
        match property_id with
        | some pid =>
          .obj [("id".data, .str pid),
                ("name".data, optStrJson property_name)]
        | none => .null),
       ("facts".data, facts_data)])

/-- `find_entity_facts` (`server_sse.py`, lines 408-519).  `entRes`, `metaRes`
and `propRes` are the stubbed returns of `search_entity`,
`get_entity_metadata` and `search_property`.  In both the `except
json.JSONDecodeError` arm and the no-error arm of the first `try`,
`entity_id` is set to the same string, so the two arms coincide unless the
parsed value is a dict with an `error` key. -/
def find_entity_facts (endpoint : Nat → List Char → AttemptResult)
    (entity_name : List Char) (property_name : Option (List Char))
    (entRes : List Char) (metaRes : JsonVal) (propRes : List Char) : List Char :=
  let entity_id_json_str := search_wikidata_entity entity_name entRes
  if (match parseJson entity_id_json_str with
      | some d => hasErrKey d
      | none => false) then entity_id_json_str
  else
    let entity_id := entity_id_json_str
    let metadata_json_str := get_wikidata_metadata entity_id metaRes
    match parseJson metadata_json_str with
    | none =>
      dumpVal (.obj
        [("error".data, .str "Failed to parse metadata response.".data),
         ("details".data, .str metadata_json_str),
         ("suggestion".data,
          .str "Metadata service might have returned an unexpected format.".data)])
    | some metadata =>
      if hasErrKey metadata then
        match metadata with
        | .obj ms =>
          dumpVal (.obj (objSet ms "context".data
            (.str ("Error fetching metadata for entity \x27".data ++ entity_name ++
              "\x27 (ID: ".data ++ entity_id ++ ").".data))))
        | v => dumpVal v
      else
        match property_name with
        | none => findFactsFinish endpoint entity_name none entity_id metadata none
        | some pname =>
          let property_id_json_str := search_wikidata_property pname propRes
          match parseJson property_id_json_str with
          | some property_id_data =>
            if hasErrKey property_id_data then
              dumpVal (.obj
                [("entity_found".data, metadata),
                 ("error_searching_property".data, property_id_data),
                 ("suggestion".data,
                  .str ("Could not find property \x27".data ++ pname ++
                    "\x27 while looking up facts for \x27".data ++ entity_name ++
                    "\x27.".data))])
            else
              findFactsFinish endpoint entity_name (some pname) entity_id metadata
                (some property_id_json_str)
          | none =>
            findFactsFinish endpoint entity_name (some pname) entity_id metadata
              (some property_id_json_str)

/-- The specific-relation query of `get_related_entities` (`server_sse.py`,
lines 533-542). -/
def relatedQueryProp (entity_id relation_property : List Char) (limit : Nat) :
    List Char :=
  "\n        SELECT ?related ?relatedLabel\n        WHERE \x7b\n          wd:".data ++
  entity_id ++ " wdt:".data ++ relation_property ++
  " ?related.\n          SERVICE wikibase:label \x7b bd:serviceParam wikibase:language \"en\". \x7d\n        \x7d\n        LIMIT ".data ++
  (Nat.repr limit).data ++ "\n        ".data

/-- The any-relation query of `get_related_entities` (`server_sse.py`,
lines 544-562). -/
def relatedQueryGen (entity_id : List Char) (limit : Nat) : List Char :=
  "\n        # Find related entities: Apply LIMIT before fetching labels.\n        SELECT ?relation ?relationLabel ?related ?relatedLabel\n        WHERE \x7b\n          \x7b\n            SELECT ?relation ?related\n            WHERE \x7b\n              wd:".data ++
  entity_id ++
  " ?p ?related.\n              ?property wikibase:directClaim ?p.\n              BIND(?property as ?relation)\n              # Ensure ?related is a Wikidata entity\n              FILTER(STRSTARTS(STR(?related), \"http://www.wikidata.org/entity/\"))\n            \x7d\n            LIMIT ".data ++
  (Nat.repr limit).data ++
  "\n          \x7d\n          SERVICE wikibase:label \x7b bd:serviceParam wikibase:language \"en\". \x7d\n        \x7d\n        ".data

/-- `get_related_entities` (`server_sse.py`, lines 520-580). -/
def get_related_entities (endpoint : Nat → List Char → AttemptResult)
    (entity_id : List Char) (relation_property : Option (List Char))
    (limit : Nat) : List Char :=
  let sparql_query :=
    match relation_property with
    | some rp => relatedQueryProp entity_id rp limit
    | none => relatedQueryGen entity_id limit
  let related_entities_json_str := execute_wikidata_sparql endpoint sparql_query
  match parseJson related_entities_json_str with
  | none =>
    dumpVal (.obj
      [("error".data,
        .str "Failed to parse SPARQL result from internal call to execute_wikidata_sparql for related entities.".data),
       ("details".data, .str "The response was not valid JSON.".data),
       ("context".data, .obj
         [("entity_id".data, .str entity_id),
          ("relation_property".data, optStrJson relation_property),
          ("query".data, .str sparql_query)]),
       ("suggestion".data,
        .str "This indicates an internal issue with the server\x27s SPARQL execution tool chain.".data)])
  | some _ => related_entities_json_str

/-- An endpoint stub whose successful results are well-formed JSON objects, as
the Wikidata SPARQL endpoint's JSON results always are. -/
def EndpointObjWF (endpoint : Nat → List Char → AttemptResult) : Prop :=
  ∀ n q v, endpoint n q = .success v →
    (∃ ms, v = .obj ms) ∧ jsonWF v = true


/-! Facts used to prove that `parseJson` inverts `dumpVal`. -/

/-- The characters that can start `dumpVal` output on a well-formed value. -/
def dumpHeadP (c : Char) : Prop :=
  c = 'n' ∨ c = 't' ∨ c = 'f' ∨ c = '"' ∨ c = '[' ∨ c = '\x7b' ∨ c = '-' ∨ isDigitCh c = true

/-- `parseVal` with this much fuel inverts `dumpVal` on well-formed values. -/
def ParsesDumpVal (fuel : Nat) : Prop :=
  ∀ v X, jsonWF v = true → numSafe X = true → rankVal v ≤ fuel →
    parseVal fuel (dumpVal v ++ X) = some (v, X)

/-- `parseItems` with this much fuel inverts `dumpItems` on well-formed
non-empty item lists. -/
def ParsesDumpItems (fuel : Nat) : Prop :=
  ∀ xs X s, xs ≠ [] → jsonWFItems xs = true → rankItems xs ≤ fuel →
    skipWs s = dumpItems xs ++ (']' :: X) →
    parseItems fuel s = some (xs, X)

/-- `parseMembers` with this much fuel inverts `dumpMembers` on well-formed
non-empty member lists. -/
def ParsesDumpMembers (fuel : Nat) : Prop :=
  ∀ ms X s, ms ≠ [] → jsonWFMembers ms = true → rankMembers ms ≤ fuel →
    skipWs s = dumpMembers ms ++ ('\x7d' :: X) →
    parseMembers fuel s = some (ms, X)

/-! Supporting lemmas about the string primitives. -/

theorem getLast?_mem' {α : Type} {l : List α} {a : α} (h : l.getLast? = some a) : a ∈ l := by
  induction l with
  | nil => simp at h
  | cons x xs ih =>
    cases xs with
    | nil => simp at h; simp [h]
    | cons y ys =>
      rw [List.getLast?_cons_cons] at h
      exact List.mem_cons_of_mem _ (ih h)

theorem pyToUpper_eq_space_iff (c : Char) : pyToUpper c = ' ' ↔ c = ' ' := by
  constructor
  · intro h
    by_contra hc
    unfold pyToUpper at h
    cases hf : lowerUpperTable.find? (fun p => p.1 == c) with
    | none => rw [hf] at h; simp at h; exact hc h
    | some p =>
      rw [hf] at h
      simp at h
      have hmem := List.mem_of_find?_eq_some hf
      have hall : ∀ q ∈ lowerUpperTable, q.2 ≠ ' ' := by decide
      exact hall p hmem h
  · intro h; subst h; rfl

theorem pyToUpper_bne_space (c : Char) : (pyToUpper c != ' ') = (c != ' ') := by
  by_cases hc : c = ' '
  · subst hc; rfl
  · have h2 : pyToUpper c ≠ ' ' := fun h => hc ((pyToUpper_eq_space_iff c).mp h)
    have l1 : (pyToUpper c != ' ') = true := bne_iff_ne.mpr h2
    have r1 : (c != ' ') = true := bne_iff_ne.mpr hc
    rw [l1, r1]

theorem upper_takeWhile_space (s : List Char) :
    (pyUpper s).takeWhile (fun c => c != ' ') = pyUpper (s.takeWhile (fun c => c != ' ')) := by
  unfold pyUpper
  induction s with
  | nil => rfl
  | cons c cs ih =>
    simp only [List.map_cons, List.takeWhile_cons, pyToUpper_bne_space]
    cases h : (c != ' ') with
    | false => simp
    | true => simp [ih]

theorem mem_of_hasSub {pat s : List Char} {c : Char} (h : hasSub pat s = true) (hc : c ∈ pat) :
    c ∈ s := by
  induction s with
  | nil =>
    unfold hasSub at h
    rw [List.isEmpty_iff] at h
    subst h
    exact absurd hc (List.not_mem_nil c)
  | cons a rest ih =>
    unfold hasSub at h
    rw [Bool.or_eq_true] at h
    cases h with
    | inl hpre => exact (List.isPrefixOf_iff_prefix.mp hpre).subset hc
    | inr hrec => exact List.mem_cons_of_mem _ (ih hrec)

theorem hasSub_singleton (c : Char) (s : List Char) : hasSub [c] s = s.contains c := by
  induction s with
  | nil => rfl
  | cons a rest ih =>
    unfold hasSub
    rw [ih, List.contains_cons]
    simp [List.isPrefixOf]

theorem contains_true_of_mem {s : List Char} {c : Char} (h : c ∈ s) : s.contains c = true :=
  List.elem_iff.mpr h

theorem mem_of_contains_true {s : List Char} {c : Char} (h : s.contains c = true) : c ∈ s :=
  List.elem_iff.mp h

/-- The five substring markers of the likely-triple-pattern test reduce to
containment of a colon or a question mark. -/
theorem triple_marker_eq (st : List Char) :
    (hasSub "wd:".data st || hasSub "wdt:".data st || hasSub "rdf:".data st ||
     hasSub ":".data st || hasSub "?".data st) = (st.contains ':' || st.contains '?') := by
  cases hl : (st.contains ':' || st.contains '?') with
  | true =>
    rw [Bool.or_eq_true] at hl
    cases hl with
    | inl h =>
      have hq : hasSub ":".data st = true := by
        show hasSub [':'] st = true
        rw [hasSub_singleton]; exact h
      simp [hq]
    | inr h =>
      have hq : hasSub "?".data st = true := by
        show hasSub ['?'] st = true
        rw [hasSub_singleton]; exact h
      simp [hq]
  | false =>
    have hc : st.contains ':' = false := by
      cases hx : st.contains ':' with
      | false => rfl
      | true => rw [hx] at hl; simp at hl
    have hq : st.contains '?' = false := by
      cases hx : st.contains '?' with
      | false => rfl
      | true => rw [hx] at hl; simp at hl
    have noColon : ∀ pat : List Char, ':' ∈ pat → hasSub pat st = false := by
      intro pat hch
      cases hx : hasSub pat st with
      | false => rfl
      | true =>
        have := contains_true_of_mem (mem_of_hasSub hx hch)
        rw [this] at hc; exact absurd hc (by simp)
    have h1 := noColon "wd:".data (by decide)
    have h2 := noColon "wdt:".data (by decide)
    have h3 := noColon "rdf:".data (by decide)
    have h4 := noColon ":".data (by decide)
    have h5 : hasSub "?".data st = false := by
      cases hx : hasSub "?".data st with
      | false => rfl
      | true =>
        have hmm : ('?' : Char) ∈ "?".data := by decide
        have := contains_true_of_mem (mem_of_hasSub hx hmm)
        rw [this] at hq; exact absurd hq (by simp)
    rw [h1, h2, h3, h4, h5]
    rfl

theorem keepLine_eq_amendedKeepLine (l : List Char) : keepLine l = amendedKeepLine l := by
  simp only [keepLine, amendedKeepLine]
  cases hd : ((pyStrip l).isEmpty || ['#'].isPrefixOf (pyStrip l)) with
  | true => simp [hd]
  | false =>
    simp only [hd, Bool.not_false, Bool.true_and, if_false, Bool.false_eq_true]
    rw [upper_takeWhile_space, triple_marker_eq]
    cases hK : allowed_keywords.contains (pyUpper ((pyStrip l).takeWhile (fun c => c != ' '))) with
    | true => simp [hK]
    | false =>
      cases hS : (['\x7b', '\x7d', ';', ','].any (fun c => (pyStrip l).contains c)) with
      | true => simp [hS]
      | false =>
        cases hT : (((pyStrip l).contains ':' || (pyStrip l).contains '?') &&
            ((pyStrip l).getLast? == some '.')) with
        | true => simp [hT]
        | false => simp [hT]

theorem keepLine_strip_not_empty {l : List Char} (h : keepLine l = true) :
    (pyStrip l).isEmpty = false := by
  cases hh : (pyStrip l).isEmpty with
  | false => rfl
  | true =>
    simp only [keepLine, hh, Bool.true_or, if_true] at h
    simp at h

theorem keepLine_ne_nil {l : List Char} (h : keepLine l = true) : l ≠ [] := by
  intro he
  subst he
  exact absurd h (by decide)

/-! Supporting lemmas for idempotence of the Sanitizer. -/

theorem splitAcc_cons_nl (rest acc : List Char) :
    splitAcc ('\n' :: rest) acc = acc.reverse :: splitAcc rest [] := by
  simp [splitAcc]

theorem splitAcc_cons_other {c : Char} (rest acc : List Char) (h : c ≠ '\n') :
    splitAcc (c :: rest) acc = splitAcc rest (c :: acc) := by
  simp [splitAcc, h]

theorem splitAcc_no_nl {s acc : List Char} (hacc : '\n' ∉ acc) :
    ∀ l ∈ splitAcc s acc, '\n' ∉ l := by
  induction s generalizing acc with
  | nil =>
    intro l hl
    simp only [splitAcc, List.mem_singleton] at hl
    subst hl
    simpa using hacc
  | cons c rest ih =>
    intro l hl
    simp only [splitAcc] at hl
    by_cases hc : c = '\n'
    · rw [if_pos hc] at hl
      cases hl with
      | head => simpa using hacc
      | tail _ hm => exact ih (by simp) l hm
    · rw [if_neg hc] at hl
      refine ih ?_ l hl
      intro hmem
      cases hmem with
      | head => exact hc rfl
      | tail _ hm => exact hacc hm

theorem mem_pySplitlines_no_nl {s : List Char} : ∀ l ∈ pySplitlines s, '\n' ∉ l := by
  intro l hl
  unfold pySplitlines at hl
  by_cases hs : s = []
  · rw [if_pos hs] at hl; simp at hl
  · rw [if_neg hs] at hl
    unfold dropLastEmpty at hl
    have hsub : l ∈ splitAcc s [] := by
      cases hlast : (splitAcc s []).getLast? with
      | none => rw [hlast] at hl; exact hl
      | some x =>
        rw [hlast] at hl
        cases x with
        | nil => exact (List.dropLast_sublist _).subset hl
        | cons y ys => exact hl
    exact splitAcc_no_nl (by simp) l hsub

theorem splitAcc_append_no_nl {l : List Char} (r acc : List Char) (hl : '\n' ∉ l) :
    splitAcc (l ++ r) acc = splitAcc r (l.reverse ++ acc) := by
  induction l generalizing acc with
  | nil => simp
  | cons c cs ih =>
    have hc : c ≠ '\n' := fun h => hl (h ▸ List.mem_cons_self c cs)
    have hcs : '\n' ∉ cs := fun h => hl (List.mem_cons_of_mem c h)
    rw [List.cons_append, splitAcc_cons_other _ _ hc, ih _ hcs]
    simp

theorem splitAcc_joinNL {ls : List (List Char)} (h : ∀ l ∈ ls, l ≠ [] ∧ '\n' ∉ l)
    (hne : ls ≠ []) : splitAcc (joinNL ls) [] = ls := by
  induction ls with
  | nil => exact absurd rfl hne
  | cons l ls' ih =>
    cases ls' with
    | nil =>
      show splitAcc (joinNL [l]) [] = [l]
      have hl := (h l (by simp)).2
      calc splitAcc (joinNL [l]) [] = splitAcc (l ++ []) [] := by simp [joinNL]
        _ = splitAcc [] (l.reverse ++ []) := splitAcc_append_no_nl [] [] hl
        _ = [l] := by simp [splitAcc]
    | cons l' ls'' =>
      have hl := (h l (by simp)).2
      have hstep : joinNL (l :: l' :: ls'') = l ++ '\n' :: joinNL (l' :: ls'') := rfl
      rw [hstep, splitAcc_append_no_nl _ [] hl, splitAcc_cons_nl]
      simp only [List.append_nil, List.reverse_reverse]
      congr 1
      exact ih (fun x hx => h x (List.mem_cons_of_mem l hx)) (by simp)

theorem pySplitlines_joinNL {ls : List (List Char)} (h : ∀ l ∈ ls, l ≠ [] ∧ '\n' ∉ l) :
    pySplitlines (joinNL ls) = ls := by
  cases ls with
  | nil => rfl
  | cons l ls' =>
    have hlne : l ≠ [] := (h l (by simp)).1
    have hjoin_ne : joinNL (l :: ls') ≠ [] := by
      cases ls' with
      | nil => simpa [joinNL] using hlne
      | cons l' ls'' =>
        show l ++ '\n' :: joinNL (l' :: ls'') ≠ []
        simp
    unfold pySplitlines
    rw [if_neg hjoin_ne, splitAcc_joinNL h (by simp)]
    unfold dropLastEmpty
    cases hlast : (l :: ls').getLast? with
    | none => rfl
    | some x =>
      cases hx : x with
      | nil =>
        have hmem : x ∈ l :: ls' := getLast?_mem' hlast
        have := (h x hmem).1
        exact absurd hx this
      | cons y ys => rfl

/-! Claim theorems for the Sanitizer and the Prefix Injector. -/

/-- C5 counterexample: the claim's retention rule disagrees with the code.  The
line `SELECT<TAB>?x` has first whitespace-delimited token `SELECT` (a keyword),
and the line `  # wd:Q42 .` does not start with `#` and contains a colon while
ending in a period, so the claim retains both; the Sanitizer drops both (its
keyword token is delimited by the space character only, and the comment test
applies to the stripped line). -/
theorem c5_counterexample :
    specKeepLine ("SELECT\t?x".data) = true ∧
    specKeepLine ("  # wd:Q42 .".data) = true ∧
    filtered_query_lines ("SELECT\t?x\n  # wd:Q42 .".data) = [] := by
  refine ⟨by decide, by decide, by decide⟩

/-- C5 (amended): the Sanitizer drops lines whose stripped form is empty or
starts with `#`, and retains a remaining line iff (a) the first token of the
stripped line delimited by the space character only, uppercased, is in the fixed
keyword set, or (b) the line contains one of the four structural characters, or
(c) the line contains a colon or a question mark (in particular `wd:`, `wdt:`,
`rdf:`) and its stripped form ends with a period. -/
theorem c5_sanitizer_retention (q : List Char) :
    filtered_query_lines q = (pySplitlines q).filter amendedKeepLine := by
  unfold filtered_query_lines
  exact List.filter_congr (fun l _ => keepLine_eq_amendedKeepLine l)

/-- C9: the Sanitizer is idempotent: sanitizing the Sanitizer's output yields
the same text as sanitizing once, for every input text. -/
theorem c9_sanitizer_idempotent (q : List Char) :
    processed_query (processed_query q) = processed_query q := by
  unfold processed_query filtered_query_lines
  have h1 : ∀ l ∈ (pySplitlines q).filter keepLine, l ≠ [] ∧ '\n' ∉ l := by
    intro l hl
    exact ⟨keepLine_ne_nil (List.of_mem_filter hl),
      mem_pySplitlines_no_nl l (List.mem_of_mem_filter hl)⟩
  rw [pySplitlines_joinNL h1, List.filter_filter]
  congr 1
  exact List.filter_congr (fun a _ => Bool.and_self _)

/-- C6 counterexample: on the query `  PREFIX wd: <u>` (indented) followed by
`ASK { ?s ?p ?o }`, the claim's condition for injection holds (no retained line
literally starts with `PREFIX`, and a non-PREFIX line exists), yet the code does
not prepend the prefix block, because its test strips each line first. -/
theorem c6_counterexample :
    specInjectCond ("  PREFIX wd: <u>\nASK \x7b ?s ?p ?o \x7d".data) = true ∧
    full_query ("  PREFIX wd: <u>\nASK \x7b ?s ?p ?o \x7d".data) =
      processed_query ("  PREFIX wd: <u>\nASK \x7b ?s ?p ?o \x7d".data) ∧
    full_query ("  PREFIX wd: <u>\nASK \x7b ?s ?p ?o \x7d".data) ≠
      pyStrip prefixesRaw ++ '\n' ::
        processed_query ("  PREFIX wd: <u>\nASK \x7b ?s ?p ?o \x7d".data) := by
  refine ⟨by decide, by decide, by decide⟩

/-- C6 (amended): the Prefix Injector prepends the fixed standard prefix block
exactly once iff the sanitized text is non-empty, at least one retained line's
stripped form is not a PREFIX declaration, and no retained line's stripped form
starts with PREFIX (case-insensitive); otherwise the sanitized text is passed
through unchanged. -/
theorem c6_inject_rule (q : List Char) :
    full_query q =
      (if amendedInjectCond q then pyStrip prefixesRaw ++ '\n' :: processed_query q
       else processed_query q) := by
  dsimp only [full_query, amendedInjectCond]
  have hfilter_id :
      (filtered_query_lines q).filter (fun l => !(pyStrip l).isEmpty) =
        filtered_query_lines q := by
    rw [List.filter_eq_self]
    intro l hl
    have hk := List.of_mem_filter hl
    rw [keepLine_strip_not_empty hk]
    rfl
  have hany :
      ((filtered_query_lines q).filter lineIsPrefixDecl).any lineIsPrefixDecl =
        (filtered_query_lines q).any lineIsPrefixDecl := by
    rw [List.any_filter]
    congr 1
    funext a
    exact Bool.and_self _
  rw [hfilter_id, hany]

/-! Supporting lemmas about `hasSub` and the Executor loop. -/

theorem hasSub_cons_of {pat rest : List Char} (c : Char) (h : hasSub pat rest = true) :
    hasSub pat (c :: rest) = true := by
  unfold hasSub
  rw [h]
  simp

theorem hasSub_refl (pat : List Char) : hasSub pat pat = true := by
  cases pat with
  | nil => rfl
  | cons c r =>
    unfold hasSub
    have h : (c :: r).isPrefixOf (c :: r) = true :=
      List.isPrefixOf_iff_prefix.mpr (List.prefix_refl _)
    rw [h]
    simp

theorem hasSub_append_left {pat rest : List Char} (a : List Char)
    (h : hasSub pat rest = true) : hasSub pat (a ++ rest) = true := by
  induction a with
  | nil => simpa using h
  | cons c cs ih => rw [List.cons_append]; exact hasSub_cons_of c ih

theorem execLoop_success {ep : Nat → List Char → AttemptResult} {q : List Char}
    {attempt : Nat} {r : JsonVal} (fuel backoff s : _)
    (h : ep attempt (full_query q) = .success r) :
    execLoop ep q (fuel + 1) attempt backoff s = ⟨.payload r, attempt + 1, s⟩ := by
  simp [execLoop, h]

theorem execLoop_badFormed {ep : Nat → List Char → AttemptResult} {q : List Char}
    {attempt : Nat} {m t : List Char} (fuel backoff s : _)
    (h : ep attempt (full_query q) = .queryBadFormed m t) :
    execLoop ep q (fuel + 1) attempt backoff s =
      ⟨.errorReturn (failureDetails attempt q (.queryBadFormed m t)), attempt + 1, s⟩ := by
  simp [execLoop, h]

theorem execLoop_retry_step {ep : Nat → List Char → AttemptResult} {q : List Char}
    {attempt : Nat} (fuel backoff : Nat) (s : List Nat) (ha : attempt < 3 - 1)
    (hr : retryableFailure (ep attempt (full_query q)) = true) :
    execLoop ep q (fuel + 1) attempt backoff s =
      execLoop ep q fuel (attempt + 1) (backoff * 2) (s ++ [backoff]) := by
  cases h : ep attempt (full_query q) with
  | success r => rw [h] at hr; simp [retryableFailure] at hr
  | queryBadFormed m t => rw [h] at hr; simp [retryableFailure] at hr
  | timeoutErr m t => simp [execLoop, h, ha]
  | connectionErr m t => simp [execLoop, h, ha]
  | otherErr tn m t => simp [execLoop, h, ha]

theorem execLoop_terminal {ep : Nat → List Char → AttemptResult} {q : List Char}
    {attempt : Nat} (fuel backoff : Nat) (s : List Nat) (ha : ¬ attempt < 3 - 1)
    (hr : retryableFailure (ep attempt (full_query q)) = true) :
    execLoop ep q (fuel + 1) attempt backoff s =
      ⟨.errorReturn (failureDetails attempt q (ep attempt (full_query q))),
        attempt + 1, s⟩ := by
  cases h : ep attempt (full_query q) with
  | success r => rw [h] at hr; simp [retryableFailure] at hr
  | queryBadFormed m t => rw [h] at hr; simp [retryableFailure] at hr
  | timeoutErr m t => simp [execLoop, h, ha]
  | connectionErr m t => simp [execLoop, h, ha]
  | otherErr tn m t => simp [execLoop, h, ha]

/-! Claim theorems for the Executor. -/

/-- C2 counterexample: with every attempt failing with a timeout, the returned
outcome's `error_type` is `Timeout` — the type of the last underlying error —
not `MaxRetriesExceeded` as the claim states; the post-loop fallback that would
produce `MaxRetriesExceeded` is unreachable. -/
theorem c2_counterexample :
    (execute_sparql_run epAllTimeout "ASK".data).ret =
      .errorReturn ⟨"Error executing query (attempt 3/3): boom".data, "ASK".data,
        "Timeout".data, some "tb".data⟩ ∧
    "Timeout".data ≠ "MaxRetriesExceeded".data := by
  exact ⟨rfl, by decide⟩

/-- C2 (amended): when all 3 attempts fail with a retryable error, the Executor
returns the error details of the last attempt: its `error_type` is the last
underlying error's type name and its message embeds the last error's message
(in an "attempt 3/3" f-string); exactly 3 attempts are made.  The
`MaxRetriesExceeded` fallback after the loop is never reached. -/
theorem c2_exhausted_retries (ep : Nat → List Char → AttemptResult) (q : List Char)
    (h0 : retryableFailure (ep 0 (full_query q)) = true)
    (h1 : retryableFailure (ep 1 (full_query q)) = true)
    (h2 : retryableFailure (ep 2 (full_query q)) = true) :
    (execute_sparql_run ep q).ret =
      .errorReturn (failureDetails 2 q (ep 2 (full_query q))) ∧
    (execute_sparql_run ep q).attemptsMade = 3 ∧
    (failureDetails 2 q (ep 2 (full_query q))).error_type =
      failureTypeName (ep 2 (full_query q)) ∧
    hasSub (failureMessage (ep 2 (full_query q)))
      (failureDetails 2 q (ep 2 (full_query q))).error = true := by
  have hrun : execute_sparql_run ep q =
      ⟨.errorReturn (failureDetails 2 q (ep 2 (full_query q))), 3, [1, 2]⟩ := by
    unfold execute_sparql_run
    rw [execLoop_retry_step 2 1 [] (by omega) h0]
    rw [execLoop_retry_step 1 2 ([] ++ [1]) (by omega) h1]
    rw [execLoop_terminal 0 4 (([] ++ [1]) ++ [2]) (by omega) h2]
    rfl
  refine ⟨by rw [hrun], by rw [hrun], ?_, ?_⟩
  · cases hc : ep 2 (full_query q) with
    | success r => rw [hc] at h2; simp [retryableFailure] at h2
    | queryBadFormed m t => rw [hc] at h2; simp [retryableFailure] at h2
    | timeoutErr m t => simp [failureDetails, failureTypeName]
    | connectionErr m t => simp [failureDetails, failureTypeName]
    | otherErr tn m t => simp [failureDetails, failureTypeName]
  · cases hc : ep 2 (full_query q) with
    | success r => rw [hc] at h2; simp [retryableFailure] at h2
    | queryBadFormed m t => rw [hc] at h2; simp [retryableFailure] at h2
    | timeoutErr m t =>
      simp only [failureDetails, failureMessage, retryAttemptMsg]
      repeat apply hasSub_append_left
      exact hasSub_refl _
    | connectionErr m t =>
      simp only [failureDetails, failureMessage, retryAttemptMsg]
      repeat apply hasSub_append_left
      exact hasSub_refl _
    | otherErr tn m t =>
      simp only [failureDetails, failureMessage, unexpectedAttemptMsg]
      repeat apply hasSub_append_left
      exact hasSub_refl _

/-- C2 witness: the amended theorem applied to the all-timeout stub. -/
theorem c2_witness :
    (execute_sparql_run epAllTimeout "ASK".data).ret =
      .errorReturn
        (failureDetails 2 "ASK".data (epAllTimeout 2 (full_query "ASK".data))) ∧
    (execute_sparql_run epAllTimeout "ASK".data).attemptsMade = 3 :=
  ⟨(c2_exhausted_retries epAllTimeout "ASK".data rfl rfl rfl).1,
   (c2_exhausted_retries epAllTimeout "ASK".data rfl rfl rfl).2.1⟩

/-- C3 counterexample: with two retryable failures followed by success, the
backoff sleeps are 1 and 2 seconds, so the third attempt happens 3 seconds of
backoff after the first — not at least `2 ^ 2` seconds as the claim states. -/
theorem c3_counterexample :
    (execute_sparql_run epFailTwice "ASK".data).sleeps = [1, 2] ∧
    ¬ ((execute_sparql_run epFailTwice "ASK".data).sleeps.sum ≥ 2 ^ 2) := by
  exact ⟨rfl, by decide⟩

/-- C3 (amended): the Executor makes at most 3 attempts, and the backoff sleeps
are exactly `2 ^ 0, 2 ^ 1, ...`, one per retry (so the sleep before the k-th
retry is `2 ^ (k - 1)` seconds, doubling from an initial 1 second); for two
retryable failures followed by success the total backoff before the third
attempt is `1 + 2 = 3` seconds. -/
theorem c3_backoff (ep : Nat → List Char → AttemptResult) (q : List Char) :
    (execute_sparql_run ep q).attemptsMade ≤ 3 ∧
    (execute_sparql_run ep q).sleeps =
      (List.range ((execute_sparql_run ep q).attemptsMade - 1)).map (fun n => 2 ^ n) ∧
    (retryableFailure (ep 0 (full_query q)) = true →
      retryableFailure (ep 1 (full_query q)) = true →
      (∃ r, ep 2 (full_query q) = AttemptResult.success r) →
      (execute_sparql_run ep q).sleeps.sum = 3) := by
  by_cases hr0 : retryableFailure (ep 0 (full_query q)) = true
  · by_cases hr1 : retryableFailure (ep 1 (full_query q)) = true
    · have hsteps : execute_sparql_run ep q = execLoop ep q 1 2 4 [1, 2] := by
        unfold execute_sparql_run
        rw [execLoop_retry_step 2 1 [] (by omega) hr0]
        rw [execLoop_retry_step 1 2 ([] ++ [1]) (by omega) hr1]
        rfl
      by_cases hr2 : retryableFailure (ep 2 (full_query q)) = true
      · rw [hsteps, execLoop_terminal 0 4 [1, 2] (by omega) hr2]
        refine ⟨Nat.le.refl, rfl, ?_⟩
        intro _ _ hex
        obtain ⟨r, hrr⟩ := hex
        rw [hrr] at hr2
        simp [retryableFailure] at hr2
      · cases hc : ep 2 (full_query q) with
        | success r =>
          rw [hsteps, execLoop_success 0 4 [1, 2] hc]
          exact ⟨Nat.le.refl, rfl, fun _ _ _ => rfl⟩
        | queryBadFormed m t =>
          rw [hsteps, execLoop_badFormed 0 4 [1, 2] hc]
          refine ⟨Nat.le.refl, rfl, ?_⟩
          intro _ _ hex
          obtain ⟨r, hrr⟩ := hex
          simp at hrr
        | timeoutErr m t => rw [hc] at hr2; simp [retryableFailure] at hr2
        | connectionErr m t => rw [hc] at hr2; simp [retryableFailure] at hr2
        | otherErr tn m t => rw [hc] at hr2; simp [retryableFailure] at hr2
    · have hstep0 : execute_sparql_run ep q = execLoop ep q 2 1 2 [1] := by
        unfold execute_sparql_run
        rw [execLoop_retry_step 2 1 [] (by omega) hr0]
        rfl
      cases hc : ep 1 (full_query q) with
      | success r =>
        rw [hstep0, execLoop_success 1 2 [1] hc]
        refine ⟨show (2 : Nat) ≤ 3 by decide, rfl, ?_⟩
        intro _ h1' _
        simp [retryableFailure] at h1'
      | queryBadFormed m t =>
        rw [hstep0, execLoop_badFormed 1 2 [1] hc]
        refine ⟨show (2 : Nat) ≤ 3 by decide, rfl, ?_⟩
        intro _ h1' _
        simp [retryableFailure] at h1'
      | timeoutErr m t => rw [hc] at hr1; exact absurd (by simp [retryableFailure]) hr1
      | connectionErr m t => rw [hc] at hr1; exact absurd (by simp [retryableFailure]) hr1
      | otherErr tn m t => rw [hc] at hr1; exact absurd (by simp [retryableFailure]) hr1
  · cases hc : ep 0 (full_query q) with
    | success r =>
      unfold execute_sparql_run
      rw [execLoop_success 2 1 [] hc]
      refine ⟨show (1 : Nat) ≤ 3 by decide, rfl, ?_⟩
      intro h0' _ _
      simp [retryableFailure] at h0'
    | queryBadFormed m t =>
      unfold execute_sparql_run
      rw [execLoop_badFormed 2 1 [] hc]
      refine ⟨show (1 : Nat) ≤ 3 by decide, rfl, ?_⟩
      intro h0' _ _
      simp [retryableFailure] at h0'
    | timeoutErr m t => rw [hc] at hr0; exact absurd (by simp [retryableFailure]) hr0
    | connectionErr m t => rw [hc] at hr0; exact absurd (by simp [retryableFailure]) hr0
    | otherErr tn m t => rw [hc] at hr0; exact absurd (by simp [retryableFailure]) hr0

/-- C3 witness: the amended theorem applied to the fails-twice-then-succeeds
stub, yielding the 3-second total backoff. -/
theorem c3_witness :
    (execute_sparql_run epFailTwice "ASK".data).sleeps.sum = 3 :=
  (c3_backoff epFailTwice "ASK".data).2.2 rfl rfl ⟨JsonVal.null, rfl⟩

/-- C4: when the endpoint raises a malformed-query error on the first attempt,
the Executor returns a terminal `QueryBadFormed` outcome after exactly one
attempt: no retry is made and no backoff sleep occurs. -/
theorem c4_badformed_no_retry (ep : Nat → List Char → AttemptResult)
    (q msg tb : List Char) (h : ep 0 (full_query q) = .queryBadFormed msg tb) :
    (execute_sparql_run ep q).ret =
      .errorReturn ⟨"SPARQL Query Syntax Error: ".data ++ msg, q,
        "QueryBadFormed".data, some tb⟩ ∧
    (execute_sparql_run ep q).attemptsMade = 1 ∧
    (execute_sparql_run ep q).sleeps = [] := by
  unfold execute_sparql_run
  rw [execLoop_badFormed 2 1 [] h]
  exact ⟨rfl, rfl, rfl⟩

/-- C4 witness: the theorem applied to the always-bad-syntax stub. -/
theorem c4_witness :
    (execute_sparql_run epBadFormed "ASK".data).attemptsMade = 1 ∧
    (execute_sparql_run epBadFormed "ASK".data).sleeps = [] :=
  ⟨(c4_badformed_no_retry epBadFormed "ASK".data "bad syntax".data "tb".data rfl).2.1,
   (c4_badformed_no_retry epBadFormed "ASK".data "bad syntax".data "tb".data rfl).2.2⟩

/-! Supporting lemmas for the Validator. -/

theorem bracketLoop_eq_spec (q : List Char) :
    ∀ st : List Char,
      bracketLoop q st =
        (specDelimScan q (st.map (fun o => (o, closerOf o)))).map
          (fun p => if p.1 then bracketMismatchVerdict p.2 else bracketUnclosedVerdict p.2) := by
  induction q with
  | nil =>
    intro st
    cases st with
    | nil => rfl
    | cons top rest => rfl
  | cons c rest ih =>
    intro st
    by_cases h1 : c = '('
    · subst h1; exact ih ('(' :: st)
    · by_cases h2 : c = '['
      · subst h2; exact ih ('[' :: st)
      · by_cases h3 : c = '\x7b'
        · subst h3; exact ih ('\x7b' :: st)
        · by_cases h4 : c = ')'
          · subst h4
            cases st with
            | nil => rfl
            | cons top st' =>
              show (if closerOf top == ')' then bracketLoop rest st'
                    else some (bracketMismatchVerdict ')')) =
                Option.map _ (if closerOf top == ')' then
                  specDelimScan rest (st'.map (fun o => (o, closerOf o)))
                  else some (true, ')'))
              cases hb : closerOf top == ')' with
              | true => exact ih st'
              | false => rfl
          · by_cases h5 : c = ']'
            · subst h5
              cases st with
              | nil => rfl
              | cons top st' =>
                show (if closerOf top == ']' then bracketLoop rest st'
                      else some (bracketMismatchVerdict ']')) =
                  Option.map _ (if closerOf top == ']' then
                    specDelimScan rest (st'.map (fun o => (o, closerOf o)))
                    else some (true, ']'))
                cases hb : closerOf top == ']' with
                | true => exact ih st'
                | false => rfl
            · by_cases h6 : c = '\x7d'
              · subst h6
                cases st with
                | nil => rfl
                | cons top st' =>
                  show (if closerOf top == '\x7d' then bracketLoop rest st'
                        else some (bracketMismatchVerdict '\x7d')) =
                    Option.map _ (if closerOf top == '\x7d' then
                      specDelimScan rest (st'.map (fun o => (o, closerOf o)))
                      else some (true, '\x7d'))
                  cases hb : closerOf top == '\x7d' with
                  | true => exact ih st'
                  | false => rfl
              · have e1 : (c == '(') = false := by simp [h1]
                have e2 : (c == '[') = false := by simp [h2]
                have e3 : (c == '\x7b') = false := by simp [h3]
                have e4 : (c == ')') = false := by simp [h4]
                have e5 : (c == ']') = false := by simp [h5]
                have e6 : (c == '\x7d') = false := by simp [h6]
                have hopen : bracketsOpen.contains c = false := by
                  simp [bracketsOpen, List.contains_cons]
                  exact ⟨h1, h2, h3⟩
                have hclose : bracketsClose.contains c = false := by
                  simp [bracketsClose, List.contains_cons]
                  exact ⟨h4, h5, h6⟩
                simp only [bracketLoop, specDelimScan, hopen, hclose,
                  e1, e2, e3, e4, e5, e6, Bool.false_eq_true, if_false]
                exact ih st

theorem check_dq_char (q : List Char) :
    check_double_quotes q =
      (if amendedDqBad q then some unbalancedDoubleQuotesVerdict else none) := by
  unfold check_double_quotes amendedDqBad
  cases h1 : ((q.count '"') % 2 != 0) <;>
    cases h2 : reSearch reLangTagQuote q <;>
      cases h3 : reSearch reDatatypeQuote q <;>
        cases h4 : (((stripComments q).count '"') % 2 != 0) <;>
          simp [h1, h2, h3, h4]

theorem check_sq_char (q : List Char) :
    check_single_quotes q =
      (if amendedSqBad q then some unbalancedSingleQuotesVerdict else none) := by
  unfold check_single_quotes amendedSqBad
  cases h1 : ((q.count '\x27') % 2 != 0) <;>
    cases h2 : (((stripComments q).count '\x27') % 2 != 0) <;>
      simp [h1, h2]

/-! Claim theorems for the Validator. -/

/-- C7: for every input with unbalanced `()`, `[]`, `{}` delimiters — an
unmatched or wrongly-ordered closer, or an opener left unclosed at the end of
the string — the Validator returns the corresponding invalid verdict, whose
error message names the offending character; the delimiter check is the first
check and its verdict is the Validator's whole answer, short-circuiting all
later checks. -/
theorem c7_unbalanced_rejected (q : List Char) (k : Bool) (c : Char)
    (h : specUnbalanced q = some (k, c)) :
    validate_sparql_query q =
      (if k then bracketMismatchVerdict c else bracketUnclosedVerdict c) ∧
    (validate_sparql_query q).is_valid = false ∧
    ∃ m, (validate_sparql_query q).error = some m ∧ c ∈ m := by
  have hb : check_brackets q =
      some (if k then bracketMismatchVerdict c else bracketUnclosedVerdict c) := by
    unfold check_brackets
    rw [bracketLoop_eq_spec]
    simp only [List.map_nil]
    rw [show specDelimScan q [] = some (k, c) from h]
    rfl
  have hv : validate_sparql_query q =
      (if k then bracketMismatchVerdict c else bracketUnclosedVerdict c) := by
    unfold validate_sparql_query
    rw [hb]
    rfl
  refine ⟨hv, ?_, ?_⟩
  · rw [hv]; cases k <;> rfl
  · rw [hv]
    cases k
    · exact ⟨_, rfl, by simp⟩
    · exact ⟨_, rfl, by simp⟩

/-- C7 witness: a query with an unclosed parenthesis is rejected by the
delimiter check, naming the parenthesis. -/
theorem c7_witness :
    validate_sparql_query "SELECT (".data = bracketUnclosedVerdict '(' := by
  have := (c7_unbalanced_rejected "SELECT (".data false '(' (by decide)).1
  simpa using this

/-- C8 counterexample: in `ASK { @en ' }` the single quote is adjacent to a
language tag, so the claim's exclusion makes the single-quote count 0 (even)
and the claim predicts the quote check passes; the code applies no exclusion to
single quotes and returns the unbalanced-single-quotes verdict. -/
theorem c8_counterexample :
    specQuoteCountExcl '\x27' [] (stripComments "ASK \x7b @en \x27 \x7d".data) % 2 = 0 ∧
    validate_sparql_query "ASK \x7b @en \x27 \x7d".data = unbalancedSingleQuotesVerdict := by
  exact ⟨by decide, by decide⟩

/-- C8 (amended): for every query on which all earlier checks pass, the
Validator fails with "Unbalanced double quotes." iff the raw double-quote count
is odd, no language-tag and no datatype pattern occurs anywhere in the query,
and the comment-stripped count is still odd (the bypass applies to the whole
check, not per quote); otherwise it fails with "Unbalanced single quotes." iff
the raw and comment-stripped single-quote counts are odd, with no language-tag
or datatype exclusion of any kind; otherwise the query is valid. -/
theorem c8_quote_checks (q : List Char)
    (h1 : check_brackets q = none) (h2 : check_select q = none)
    (h3 : check_where q = none) (h4 : check_prefix_uri q = none)
    (h5 : check_prefix_close q = none) (h6 : check_filter q = none)
    (h7 : check_limit_offset q = none) (h8 : check_order_by q = none)
    (h9 : check_group_by q = none) :
    validate_sparql_query q =
      (if amendedDqBad q then unbalancedDoubleQuotesVerdict
       else if amendedSqBad q then unbalancedSingleQuotesVerdict
       else ⟨true, none, none⟩) := by
  unfold validate_sparql_query
  rw [h1, h2, h3, h4, h5, h6, h7, h8, h9, check_dq_char, check_sq_char]
  cases hd : amendedDqBad q <;> cases hs : amendedSqBad q <;> simp

/-- C8 witness: a query with a lone double quote reaches the quote checks and
is rejected as unbalanced. -/
theorem c8_witness :
    validate_sparql_query "ASK \x7b ?p \"a \x7d".data =
      (if amendedDqBad "ASK \x7b ?p \"a \x7d".data then unbalancedDoubleQuotesVerdict
       else if amendedSqBad "ASK \x7b ?p \"a \x7d".data then unbalancedSingleQuotesVerdict
       else ⟨true, none, none⟩) :=
  c8_quote_checks _ (by decide) (by decide) (by decide) (by decide) (by decide)
    (by decide) (by decide) (by decide) (by decide)

/-- C10: for every query containing a `FILTER` followed by empty parentheses
(and hence matching the outer not-an-EXISTS-form search) on which the earlier
checks — delimiters, SELECT, WHERE, and the two PREFIX checks — pass, the
Validator returns invalid with "Empty FILTER clause.", a check positioned
between the PREFIX checks and the LIMIT/OFFSET check. -/
theorem c10_empty_filter (q : List Char)
    (hb : check_brackets q = none) (hs : check_select q = none)
    (hw : check_where q = none) (hp1 : check_prefix_uri q = none)
    (hp2 : check_prefix_close q = none)
    (hout : reSearch reFilterOuter q = true) (hemp : reSearch reFilterEmpty q = true) :
    validate_sparql_query q =
      ⟨false, some "Empty FILTER clause.".data,
        some "FILTER clauses must contain an expression (e.g., FILTER(?age > 18)).".data⟩ := by
  unfold validate_sparql_query
  rw [hb, hs, hw, hp1, hp2]
  unfold check_filter
  rw [hout, hemp]
  rfl

/-- C10 witness: `ASK { FILTER ( ) }` is rejected with "Empty FILTER clause.". -/
theorem c10_witness :
    validate_sparql_query "ASK \x7b FILTER ( ) \x7d".data =
      ⟨false, some "Empty FILTER clause.".data,
        some "FILTER clauses must contain an expression (e.g., FILTER(?age > 18)).".data⟩ :=
  c10_empty_filter "ASK \x7b FILTER ( ) \x7d".data (by decide) (by decide) (by decide)
    (by decide) (by decide) (by decide) (by decide)

/-! Supporting lemmas for the JSON parser round trip. -/

theorem dropWhile_head_false {p : Char → Bool} {l : List Char} {c : Char} {t : List Char}
    (h : l.dropWhile p = c :: t) : p c = false := by
  induction l with
  | nil => simp at h
  | cons a l' ih =>
    rw [List.dropWhile_cons] at h
    by_cases hp : p a = true
    · rw [if_pos hp] at h; exact ih h
    · rw [if_neg hp] at h
      obtain ⟨h1, _⟩ := List.cons.inj h
      subst h1
      exact Bool.eq_false_iff.mpr hp

theorem takeWhile_digits_append {ds X : List Char} (hds : ∀ c ∈ ds, isDigitCh c = true)
    (hX : ∀ c t, X = c :: t → isDigitCh c = false) :
    (ds ++ X).takeWhile isDigitCh = ds ∧ (ds ++ X).dropWhile isDigitCh = X := by
  induction ds with
  | nil =>
    simp only [List.nil_append]
    cases X with
    | nil => simp
    | cons c t =>
      have hc := hX c t rfl
      rw [List.takeWhile_cons, List.dropWhile_cons, hc]
      simp
  | cons d ds' ih =>
    have hd := hds d (by simp)
    have ih' := ih (fun c hc => hds c (by simp [hc]))
    rw [List.cons_append, List.takeWhile_cons, List.dropWhile_cons, hd]
    simp only [if_true]
    exact ⟨by rw [ih'.1], by rw [ih'.2]⟩

theorem numSafe_head_digit {X : List Char} (h : numSafe X = true) :
    ∀ c t, X = c :: t → isDigitCh c = false := by
  intro c t hx
  subst hx
  simp only [numSafe, Bool.not_eq_true', Bool.or_eq_false_iff] at h
  exact h.1.1.1

theorem numSafe_head_dot {X : List Char} (h : numSafe X = true) :
    ∀ c t, X = c :: t → (c == '.') = false := by
  intro c t hx
  subst hx
  simp only [numSafe, Bool.not_eq_true', Bool.or_eq_false_iff] at h
  exact h.1.1.2

theorem numSafe_head_exp {X : List Char} (h : numSafe X = true) :
    ∀ c t, X = c :: t → (c == 'e') = false ∧ (c == 'E') = false := by
  intro c t hx
  subst hx
  simp only [numSafe, Bool.not_eq_true', Bool.or_eq_false_iff] at h
  exact ⟨h.1.2, h.2⟩

theorem scanIntPart_some_inv {s ip s2 : List Char} (h : scanIntPart s = some (ip, s2)) :
    ip ≠ [] ∧ (∀ c ∈ ip, isDigitCh c = true) ∧ s = ip ++ s2 ∧
      (∀ c t, s2 = c :: t → isDigitCh c = false) := by
  unfold scanIntPart at h
  by_cases he : (s.takeWhile isDigitCh).isEmpty
  · rw [if_pos he] at h; exact absurd h (by simp)
  · rw [if_neg he] at h
    have h' : s.takeWhile isDigitCh = ip ∧ s.dropWhile isDigitCh = s2 := by
      simpa using h
    obtain ⟨h1, h2⟩ := h'
    refine ⟨?_, ?_, ?_, ?_⟩
    · rw [← h1]; intro hc; rw [hc] at he; exact he rfl
    · intro c hc; rw [← h1] at hc; exact List.mem_takeWhile_imp hc
    · rw [← h1, ← h2, List.takeWhile_append_dropWhile]
    · intro c t hc; rw [← h2] at hc; exact dropWhile_head_false hc

theorem scanIntPart_append {s ip s2 X : List Char} (h : scanIntPart s = some (ip, s2))
    (hX : s2 = [] → numSafe X = true) :
    scanIntPart (s ++ X) = some (ip, s2 ++ X) := by
  obtain ⟨hne, hdig, hs, hhead⟩ := scanIntPart_some_inv h
  subst hs
  have hcond : ∀ c t, s2 ++ X = c :: t → isDigitCh c = false := by
    intro c t hc
    cases s2 with
    | nil =>
      simp only [List.nil_append] at hc
      exact numSafe_head_digit (hX rfl) c t hc
    | cons a s2' =>
      rw [List.cons_append] at hc
      obtain ⟨h1, _⟩ := List.cons.inj hc
      subst h1
      exact hhead a s2' rfl
  have hspan := takeWhile_digits_append hdig hcond
  unfold scanIntPart
  rw [List.append_assoc, hspan.1, hspan.2]
  have : ip.isEmpty = false := by
    cases ip with
    | nil => exact absurd rfl hne
    | cons _ _ => rfl
  rw [this]
  rfl

theorem scanFrac_append {s fp s3 X : List Char} (h : scanFrac s = some (fp, s3))
    (hX : s3 = [] → numSafe X = true) :
    scanFrac (s ++ X) = some (fp, s3 ++ X) := by
  cases s with
  | nil =>
    have h' : ([] : List Char) = fp ∧ ([] : List Char) = s3 := by
      simpa [scanFrac] using h
    obtain ⟨h1, h2⟩ := h'
    subst h1
    subst h2
    simp only [List.nil_append]
    have hs := hX rfl
    cases X with
    | nil => rfl
    | cons c t =>
      have hdot := numSafe_head_dot hs c t rfl
      simp only [scanFrac, hdot]
      rfl
  | cons c r =>
    by_cases hc : (c == '.') = true
    · simp only [scanFrac, hc, if_true] at h
      by_cases hemp : (r.takeWhile isDigitCh).isEmpty
      · rw [if_pos hemp] at h; exact absurd h (by simp)
      · rw [if_neg hemp] at h
        have h' : '.' :: r.takeWhile isDigitCh = fp ∧ r.dropWhile isDigitCh = s3 := by
          simpa using h
        obtain ⟨h1, h2⟩ := h'
        have hdig : ∀ d ∈ r.takeWhile isDigitCh, isDigitCh d = true :=
          fun d hd => List.mem_takeWhile_imp hd
        have hcond : ∀ d t, s3 ++ X = d :: t → isDigitCh d = false := by
          intro d t hc2
          cases hs3 : s3 with
          | nil =>
            rw [hs3, List.nil_append] at hc2
            exact numSafe_head_digit (hX hs3) d t hc2
          | cons a s3' =>
            rw [hs3, List.cons_append] at hc2
            obtain ⟨ha, _⟩ := List.cons.inj hc2
            subst ha
            rw [← h2] at hs3
            exact dropWhile_head_false hs3
        have hr : r = r.takeWhile isDigitCh ++ s3 := by
          rw [← h2, List.takeWhile_append_dropWhile]
        have hrx : r ++ X = r.takeWhile isDigitCh ++ (s3 ++ X) := by
          conv_lhs => rw [hr]
          rw [List.append_assoc]
        have hspan := takeWhile_digits_append hdig hcond
        rw [List.cons_append]
        simp only [scanFrac, hc, if_true]
        rw [hrx, hspan.1, hspan.2]
        have hne : (r.takeWhile isDigitCh).isEmpty = false := by
          cases hh : r.takeWhile isDigitCh with
          | nil => rw [hh] at hemp; exact absurd rfl hemp
          | cons _ _ => rfl
        rw [if_neg (by simp [hne])]
        rw [h1]
    · have hcf : (c == '.') = false := by
        cases hcc : (c == '.') with
        | false => rfl
        | true => exact absurd hcc hc
      simp only [scanFrac, hcf, Bool.false_eq_true, if_false] at h
      have h' : ([] : List Char) = fp ∧ c :: r = s3 := by simpa using h
      obtain ⟨h1, h2⟩ := h'
      subst h1
      rw [List.cons_append]
      simp only [scanFrac, hcf, Bool.false_eq_true, if_false]
      rw [← h2]
      rfl

theorem scanExp_append {s ep s4 X : List Char} (h : scanExp s = some (ep, s4))
    (hX : s4 = [] → numSafe X = true) :
    scanExp (s ++ X) = some (ep, s4 ++ X) := by
  cases s with
  | nil =>
    have h' : ([] : List Char) = ep ∧ ([] : List Char) = s4 := by
      simpa [scanExp] using h
    obtain ⟨h1, h2⟩ := h'
    subst h1
    subst h2
    simp only [List.nil_append]
    have hs := hX rfl
    cases X with
    | nil => rfl
    | cons c t =>
      have hexp := numSafe_head_exp hs c t rfl
      simp only [scanExp, hexp.1, hexp.2]
      rfl
  | cons c r =>
    by_cases hc : (c == 'e' || c == 'E') = true
    · cases r with
      | nil =>
        simp only [scanExp, hc, if_true] at h
        exact absurd h (by simp)
      | cons d r1 =>
        by_cases hd : (d == '+' || d == '-') = true
        · simp only [scanExp, hc, hd, if_true] at h
          by_cases hemp : (r1.takeWhile isDigitCh).isEmpty
          · rw [if_pos hemp] at h; exact absurd h (by simp)
          · rw [if_neg hemp] at h
            have h' : c :: d :: r1.takeWhile isDigitCh = ep ∧ r1.dropWhile isDigitCh = s4 := by
              simpa using h
            obtain ⟨h1, h2⟩ := h'
            have hdig : ∀ x ∈ r1.takeWhile isDigitCh, isDigitCh x = true :=
              fun x hx => List.mem_takeWhile_imp hx
            have hcond : ∀ x t, s4 ++ X = x :: t → isDigitCh x = false := by
              intro x t hc2
              cases hs4 : s4 with
              | nil =>
                rw [hs4, List.nil_append] at hc2
                exact numSafe_head_digit (hX hs4) x t hc2
              | cons a s4' =>
                rw [hs4, List.cons_append] at hc2
                obtain ⟨ha, _⟩ := List.cons.inj hc2
                subst ha
                rw [← h2] at hs4
                exact dropWhile_head_false hs4
            have hr : r1 = r1.takeWhile isDigitCh ++ s4 := by
              rw [← h2, List.takeWhile_append_dropWhile]
            have hrx : r1 ++ X = r1.takeWhile isDigitCh ++ (s4 ++ X) := by
              conv_lhs => rw [hr]
              rw [List.append_assoc]
            have hspan := takeWhile_digits_append hdig hcond
            rw [List.cons_append, List.cons_append]
            simp only [scanExp, hc, hd, if_true]
            rw [hrx, hspan.1, hspan.2]
            have hne : (r1.takeWhile isDigitCh).isEmpty = false := by
              cases hh : r1.takeWhile isDigitCh with
              | nil => rw [hh] at hemp; exact absurd rfl hemp
              | cons _ _ => rfl
            rw [if_neg (by simp [hne])]
            rw [h1]
        · have hdf : (d == '+' || d == '-') = false := by
            cases hdd : (d == '+' || d == '-') with
            | false => rfl
            | true => exact absurd hdd hd
          simp only [scanExp, hc, hdf, if_true, Bool.false_eq_true, if_false] at h
          by_cases hemp : ((d :: r1).takeWhile isDigitCh).isEmpty
          · rw [if_pos hemp] at h; exact absurd h (by simp)
          · rw [if_neg hemp] at h
            have h' : c :: (d :: r1).takeWhile isDigitCh = ep ∧
                (d :: r1).dropWhile isDigitCh = s4 := by
              simpa using h
            obtain ⟨h1, h2⟩ := h'
            have hdig : ∀ x ∈ (d :: r1).takeWhile isDigitCh, isDigitCh x = true :=
              fun x hx => List.mem_takeWhile_imp hx
            have hcond : ∀ x t, s4 ++ X = x :: t → isDigitCh x = false := by
              intro x t hc2
              cases hs4 : s4 with
              | nil =>
                rw [hs4, List.nil_append] at hc2
                exact numSafe_head_digit (hX hs4) x t hc2
              | cons a s4' =>
                rw [hs4, List.cons_append] at hc2
                obtain ⟨ha, _⟩ := List.cons.inj hc2
                subst ha
                rw [← h2] at hs4
                exact dropWhile_head_false hs4
            have hr : d :: r1 = (d :: r1).takeWhile isDigitCh ++ s4 := by
              rw [← h2, List.takeWhile_append_dropWhile]
            have hrx : (d :: r1) ++ X = (d :: r1).takeWhile isDigitCh ++ (s4 ++ X) := by
              conv_lhs => rw [hr]
              rw [List.append_assoc]
            rw [List.cons_append] at hrx
            have hspan := takeWhile_digits_append hdig hcond
            rw [List.cons_append, List.cons_append]
            simp only [scanExp, hc, hdf, if_true, Bool.false_eq_true, if_false]
            rw [hrx, hspan.1, hspan.2]
            have hne : ((d :: r1).takeWhile isDigitCh).isEmpty = false := by
              cases hh : (d :: r1).takeWhile isDigitCh with
              | nil => rw [hh] at hemp; exact absurd rfl hemp
              | cons _ _ => rfl
            rw [if_neg (by simp [hne])]
            rw [h1]
    · have hcf : (c == 'e' || c == 'E') = false := by
        cases hcc : (c == 'e' || c == 'E') with
        | false => rfl
        | true => exact absurd hcc hc
      simp only [scanExp, hcf, Bool.false_eq_true, if_false] at h
      have h' : ([] : List Char) = ep ∧ c :: r = s4 := by simpa using h
      obtain ⟨h1, h2⟩ := h'
      subst h1
      rw [List.cons_append]
      simp only [scanExp, hcf, Bool.false_eq_true, if_false]
      rw [← h2]
      rfl

theorem scanNumCore_append {sg t lex X : List Char}
    (h : scanNumCore sg t = some (lex, []))
    (hX : numSafe X = true) :
    scanNumCore sg (t ++ X) = some (lex, X) := by
  unfold scanNumCore at h ⊢
  cases hip : scanIntPart t with
  | none => rw [hip] at h; simp at h
  | some p =>
    obtain ⟨ip, s2⟩ := p
    rw [hip] at h
    simp only [Option.some_bind] at h
    cases hfr : scanFrac s2 with
    | none => rw [hfr] at h; simp at h
    | some q =>
      obtain ⟨fp, s3⟩ := q
      rw [hfr] at h
      simp only [Option.some_bind] at h
      cases hex : scanExp s3 with
      | none => rw [hex] at h; simp at h
      | some w =>
        obtain ⟨ep, s4⟩ := w
        rw [hex] at h
        simp only [Option.some_bind] at h
        have h' : sg ++ (ip ++ (fp ++ ep)) = lex ∧ s4 = [] := by
          simpa using h
        obtain ⟨h1, h4⟩ := h'
        subst h4
        have hip2 : scanIntPart (t ++ X) = some (ip, s2 ++ X) :=
          scanIntPart_append hip (fun _ => hX)
        have hfr2 : scanFrac (s2 ++ X) = some (fp, s3 ++ X) :=
          scanFrac_append hfr (fun _ => hX)
        have hex2 : scanExp (s3 ++ X) = some (ep, [] ++ X) :=
          scanExp_append hex (fun _ => hX)
        rw [List.nil_append] at hex2
        rw [hip2]
        simp only [Option.some_bind]
        rw [hfr2]
        simp only [Option.some_bind]
        rw [hex2]
        simp only [Option.some_bind]
        rw [h1]

theorem scanNum_append {lex X : List Char} (h : scanNum lex = some (lex, []))
    (hX : numSafe X = true) :
    scanNum (lex ++ X) = some (lex, X) := by
  cases lex with
  | nil => simp [scanNum] at h
  | cons c r =>
    by_cases hc : (c == '-') = true
    · rw [List.cons_append]
      simp only [scanNum, hc, if_true] at h ⊢
      exact scanNumCore_append h hX
    · have hcf : (c == '-') = false := by
        cases hcc : (c == '-') with
        | false => rfl
        | true => exact absurd hcc hc
      rw [List.cons_append]
      simp only [scanNum, hcf, Bool.false_eq_true, if_false] at h ⊢
      have := @scanNumCore_append [] (c :: r) (c :: r) X h hX
      rw [List.cons_append] at this
      exact this

theorem hexVal_hexDigitCh : ∀ n, n < 16 → hexVal (hexDigitCh n) = some n := by decide

theorem rankVal_pos (v : JsonVal) : 1 ≤ rankVal v := by
  cases v <;> simp [rankVal]

theorem numLexemeWF_head {lex : List Char} (h : numLexemeWF lex = true) :
    ∃ c r, lex = c :: r ∧ (c = '-' ∨ isDigitCh c = true) := by
  unfold numLexemeWF at h
  rw [beq_iff_eq] at h
  cases lex with
  | nil => simp [scanNum] at h
  | cons c r =>
    refine ⟨c, r, rfl, ?_⟩
    by_cases hc : (c == '-') = true
    · exact Or.inl (by simpa using hc)
    · right
      have hcf : (c == '-') = false := by
        cases hcc : (c == '-') with
        | false => rfl
        | true => exact absurd hcc hc
      simp only [scanNum, hcf, Bool.false_eq_true, if_false] at h
      unfold scanNumCore at h
      cases hip : scanIntPart (c :: r) with
      | none => rw [hip] at h; simp at h
      | some p =>
        unfold scanIntPart at hip
        by_cases he : ((c :: r).takeWhile isDigitCh).isEmpty
        · rw [if_pos he] at hip; exact absurd hip (by simp)
        · cases hd : isDigitCh c with
          | true => rfl
          | false =>
            exfalso
            apply he
            simp [List.takeWhile_cons, hd]

theorem skipWs_cons_not {c : Char} (t : List Char) (h : isJsonWs c = false) :
    skipWs (c :: t) = c :: t := by
  simp [skipWs, List.dropWhile_cons, h]

theorem skipWs_cons_sp (t : List Char) : skipWs (' ' :: t) = skipWs t := rfl

theorem dumpHeadP_facts {c : Char} (h : dumpHeadP c) :
    isJsonWs c = false ∧ (c == ']') = false ∧ (c == '\x7d') = false ∧
    (c == ',') = false ∧ (c == ':') = false := by
  rcases h with h|h|h|h|h|h|h|h
  · subst h; exact ⟨rfl, rfl, rfl, rfl, rfl⟩
  · subst h; exact ⟨rfl, rfl, rfl, rfl, rfl⟩
  · subst h; exact ⟨rfl, rfl, rfl, rfl, rfl⟩
  · subst h; exact ⟨rfl, rfl, rfl, rfl, rfl⟩
  · subst h; exact ⟨rfl, rfl, rfl, rfl, rfl⟩
  · subst h; exact ⟨rfl, rfl, rfl, rfl, rfl⟩
  · subst h; exact ⟨rfl, rfl, rfl, rfl, rfl⟩
  · have hb : 48 ≤ c.toNat ∧ c.toNat ≤ 57 := by simpa [isDigitCh] using h
    refine ⟨?_, ?_, ?_, ?_, ?_⟩
    · cases hw : isJsonWs c with
      | false => rfl
      | true =>
        exfalso
        have hw' : ((c = ' ' ∨ c = '\t') ∨ c = '\n') ∨ c = '\x0d' := by
          simpa [isJsonWs] using hw
        rcases hw' with ((hw'|hw')|hw')|hw' <;> (subst hw'; exact absurd hb (by decide))
    · cases he : (c == ']') with
      | false => rfl
      | true =>
        have hq : c = ']' := by simpa using he
        subst hq; exact absurd hb (by decide)
    · cases he : (c == '\x7d') with
      | false => rfl
      | true =>
        have hq : c = '\x7d' := by simpa using he
        subst hq; exact absurd hb (by decide)
    · cases he : (c == ',') with
      | false => rfl
      | true =>
        have hq : c = ',' := by simpa using he
        subst hq; exact absurd hb (by decide)
    · cases he : (c == ':') with
      | false => rfl
      | true =>
        have hq : c = ':' := by simpa using he
        subst hq; exact absurd hb (by decide)

theorem numHead_branches {c : Char} (h : c = '-' ∨ isDigitCh c = true) :
    (c == 'n') = false ∧ (c == 't') = false ∧ (c == 'f') = false ∧
    (c == '"') = false ∧ (c == '[') = false ∧ (c == '\x7b') = false := by
  rcases h with h'|h'
  · subst h'; exact ⟨rfl, rfl, rfl, rfl, rfl, rfl⟩
  · have key : ∀ d : Char, isDigitCh d = false → (c == d) = false := by
      intro d hd
      cases he : (c == d) with
      | false => rfl
      | true =>
        exfalso
        have hq : c = d := by simpa using he
        subst hq
        rw [h'] at hd
        exact absurd hd (by simp)
    exact ⟨key 'n' (by decide), key 't' (by decide), key 'f' (by decide),
      key '"' (by decide), key '[' (by decide), key '\x7b' (by decide)⟩

theorem dumpVal_head {v : JsonVal} (h : jsonWF v = true) :
    ∃ c t, dumpVal v = c :: t ∧ dumpHeadP c := by
  cases v with
  | null => exact ⟨'n', _, rfl, Or.inl rfl⟩
  | bool b =>
    cases b with
    | true => exact ⟨'t', _, rfl, Or.inr (Or.inl rfl)⟩
    | false => exact ⟨'f', _, rfl, Or.inr (Or.inr (Or.inl rfl))⟩
  | num lex =>
    have hw : numLexemeWF lex = true := by simpa [jsonWF] using h
    obtain ⟨c, r, hl, hc⟩ := numLexemeWF_head hw
    refine ⟨c, r, by simp [dumpVal, hl], ?_⟩
    rcases hc with hc|hc
    · exact Or.inr (Or.inr (Or.inr (Or.inr (Or.inr (Or.inr (Or.inl hc))))))
    · exact Or.inr (Or.inr (Or.inr (Or.inr (Or.inr (Or.inr (Or.inr hc))))))
  | str s => exact ⟨'"', _, rfl, Or.inr (Or.inr (Or.inr (Or.inl rfl)))⟩
  | arr items => exact ⟨'[', _, rfl, Or.inr (Or.inr (Or.inr (Or.inr (Or.inl rfl))))⟩
  | obj ms => exact ⟨'\x7b', _, rfl, Or.inr (Or.inr (Or.inr (Or.inr (Or.inr (Or.inl rfl)))))⟩

theorem dumpItems_head {xs : List JsonVal} (hx : xs ≠ []) (h : jsonWFItems xs = true) :
    ∃ c t, dumpItems xs = c :: t ∧ dumpHeadP c := by
  cases xs with
  | nil => exact absurd rfl hx
  | cons v rest =>
    have hv : jsonWF v = true := by
      have h' := h
      simp only [jsonWFItems, Bool.and_eq_true] at h'
      exact h'.1
    obtain ⟨c, t, hd, hp⟩ := dumpVal_head hv
    cases rest with
    | nil => exact ⟨c, t, by simp [dumpItems, hd], hp⟩
    | cons w rest2 =>
      exact ⟨c, t ++ ',' :: ' ' :: dumpItems (w :: rest2), by simp [dumpItems, hd], hp⟩

theorem dumpMembers_head {ms : List (List Char × JsonVal)} (hx : ms ≠ []) :
    ∃ t, dumpMembers ms = '"' :: t := by
  cases ms with
  | nil => exact absurd rfl hx
  | cons kv rest =>
    obtain ⟨k, v⟩ := kv
    cases rest with
    | nil =>
      exact ⟨(escStr k ++ ['"']) ++ ':' :: ' ' :: dumpVal v, by simp [dumpMembers]⟩
    | cons kv2 rest2 =>
      exact ⟨(escStr k ++ ['"']) ++ ':' :: ' ' :: dumpVal v ++
        ',' :: ' ' :: dumpMembers (kv2 :: rest2), by simp [dumpMembers]⟩

theorem parseStrBody_escStr : ∀ (s X : List Char),
    parseStrBody (escStr s ++ ('"' :: X)) = some (s, X) := by
  intro s
  induction s with
  | nil =>
    intro X
    show parseStrBody (([] : List Char) ++ ('"' :: X)) = some ([], X)
    rw [List.nil_append, parseStrBody.eq_def]
    simp
  | cons c cs ih =>
    intro X
    have hesc : escStr (c :: cs) ++ ('"' :: X) = escChar c ++ (escStr cs ++ ('"' :: X)) := by
      simp [escStr, List.append_assoc]
    rw [hesc]
    by_cases h1 : c = '"'
    · subst h1
      rw [show escChar '"' = ['\\', '"'] from by decide]
      simp only [List.cons_append, List.nil_append]
      rw [parseStrBody.eq_def]
      simp [ih]
    · by_cases h2 : c = '\\'
      · subst h2
        rw [show escChar '\\' = ['\\', '\\'] from by decide]
        simp only [List.cons_append, List.nil_append]
        rw [parseStrBody.eq_def]
        simp [ih]
      · by_cases h3 : c = '\n'
        · subst h3
          rw [show escChar '\n' = ['\\', 'n'] from by decide]
          simp only [List.cons_append, List.nil_append]
          rw [parseStrBody.eq_def]
          simp [ih]
        · by_cases h4 : c = '\x0d'
          · subst h4
            rw [show escChar '\x0d' = ['\\', 'r'] from by decide]
            simp only [List.cons_append, List.nil_append]
            rw [parseStrBody.eq_def]
            simp [ih]
          · by_cases h5 : c = '\t'
            · subst h5
              rw [show escChar '\t' = ['\\', 't'] from by decide]
              simp only [List.cons_append, List.nil_append]
              rw [parseStrBody.eq_def]
              simp [ih]
            · by_cases h6 : c.toNat < 32
              · rw [show escChar c = ['\\', 'u', '0', '0',
                    hexDigitCh (c.toNat / 16), hexDigitCh (c.toNat % 16)] from by
                  rw [escChar.eq_def]
                  rw [if_neg h1, if_neg h2, if_neg h3, if_neg h4, if_neg h5, if_pos h6]]
                have hv1 : hexVal (hexDigitCh (c.toNat / 16)) = some (c.toNat / 16) :=
                  hexVal_hexDigitCh _ (by omega)
                have hv2 : hexVal (hexDigitCh (c.toNat % 16)) = some (c.toNat % 16) :=
                  hexVal_hexDigitCh _ (by omega)
                have hz : hexVal '0' = some 0 := by decide
                have hlt2 : c.toNat / 16 * 16 + c.toNat % 16 < 55296 := by omega
                have hch2 : Char.ofNat (c.toNat / 16 * 16 + c.toNat % 16) = c := by
                  rw [show c.toNat / 16 * 16 + c.toNat % 16 = c.toNat from by omega,
                    Char.ofNat_toNat]
                simp only [List.cons_append, List.nil_append]
                rw [parseStrBody.eq_def]
                simp [hz, hv1, hv2, hlt2, hch2, ih]
              · rw [show escChar c = [c] from by
                  rw [escChar.eq_def]
                  rw [if_neg h1, if_neg h2, if_neg h3, if_neg h4, if_neg h5, if_neg h6]]
                have b1 : (c == '"') = false := by
                  cases hcc : (c == '"') with
                  | false => rfl
                  | true => exact absurd (by simpa using hcc) h1
                have b2 : (c == '\\') = false := by
                  cases hcc : (c == '\\') with
                  | false => rfl
                  | true => exact absurd (by simpa using hcc) h2
                simp only [List.cons_append, List.nil_append]
                rw [parseStrBody.eq_def]
                simp only [b1, b2, Bool.false_eq_true, if_false]
                rw [if_neg (by simpa using h6)]
                rw [ih X]
                rfl

theorem rank_bound : ∀ n : Nat,
    (∀ v : JsonVal, sizeOf v ≤ n → jsonWF v = true →
      rankVal v ≤ 2 * (dumpVal v).length) ∧
    (∀ xs : List JsonVal, sizeOf xs ≤ n → jsonWFItems xs = true →
      rankItems xs ≤ 2 * (dumpItems xs).length + 1) ∧
    (∀ ms : List (List Char × JsonVal), sizeOf ms ≤ n → jsonWFMembers ms = true →
      rankMembers ms ≤ 2 * (dumpMembers ms).length + 1) := by
  intro n
  induction n with
  | zero =>
    refine ⟨?_, ?_, ?_⟩
    · intro v hs _
      exfalso
      cases v <;> simp at hs
    · intro xs hs _
      exfalso
      cases xs <;> simp at hs
    · intro ms hs _
      exfalso
      cases ms <;> simp at hs
  | succ n ih =>
    obtain ⟨ihv, ihi, ihm⟩ := ih
    refine ⟨?_, ?_, ?_⟩
    · intro v hs hw
      cases v with
      | null => simp [rankVal, dumpVal]
      | bool b => cases b <;> simp [rankVal, dumpVal]
      | num lex =>
        have hlex : numLexemeWF lex = true := by simpa [jsonWF] using hw
        obtain ⟨c, r, hl, _⟩ := numLexemeWF_head hlex
        subst hl
        simp [rankVal, dumpVal]
        omega
      | str s => simp [rankVal, dumpVal]; omega
      | arr items =>
        have hsz : sizeOf items ≤ n := by
          have := hs
          simp only [JsonVal.arr.sizeOf_spec] at this
          omega
        have hwi : jsonWFItems items = true := by simpa [jsonWF] using hw
        have hb := ihi items hsz hwi
        simp only [rankVal, dumpVal, List.length_cons, List.length_append,
          List.length_cons, List.length_nil]
        omega
      | obj ms =>
        have hsz : sizeOf ms ≤ n := by
          have := hs
          simp only [JsonVal.obj.sizeOf_spec] at this
          omega
        have hwm : jsonWFMembers ms = true := by simpa [jsonWF] using hw
        have hb := ihm ms hsz hwm
        simp only [rankVal, dumpVal, List.length_cons, List.length_append,
          List.length_nil]
        omega
    · intro xs hs hw
      cases xs with
      | nil => simp [rankItems, dumpItems]
      | cons v rest =>
        have hwv : jsonWF v = true := by
          have h' := hw
          simp only [jsonWFItems, Bool.and_eq_true] at h'
          exact h'.1
        have hwr : jsonWFItems rest = true := by
          have h' := hw
          simp only [jsonWFItems, Bool.and_eq_true] at h'
          exact h'.2
        have hszv : sizeOf v ≤ n := by
          have := hs
          simp only [List.cons.sizeOf_spec] at this
          omega
        have hszr : sizeOf rest ≤ n := by
          have := hs
          simp only [List.cons.sizeOf_spec] at this
          omega
        have hbv := ihv v hszv hwv
        cases rest with
        | nil =>
          simp only [rankItems, dumpItems]
          omega
        | cons w rest2 =>
          have hbr := ihi (w :: rest2) hszr hwr
          have hd : dumpItems (v :: w :: rest2) =
              dumpVal v ++ ',' :: ' ' :: dumpItems (w :: rest2) := by
            simp [dumpItems]
          rw [hd]
          simp only [rankItems, List.length_append, List.length_cons]
          simp only [rankItems] at hbr
          omega
    · intro ms hs hw
      cases ms with
      | nil => simp [rankMembers, dumpMembers]
      | cons kv rest =>
        obtain ⟨k, v⟩ := kv
        have hwv : jsonWF v = true := by
          have h' := hw
          simp only [jsonWFMembers, Bool.and_eq_true] at h'
          exact h'.1
        have hwr : jsonWFMembers rest = true := by
          have h' := hw
          simp only [jsonWFMembers, Bool.and_eq_true] at h'
          exact h'.2
        have hszv : sizeOf v ≤ n := by
          have := hs
          simp only [List.cons.sizeOf_spec, Prod.mk.sizeOf_spec] at this
          omega
        have hszr : sizeOf rest ≤ n := by
          have := hs
          simp only [List.cons.sizeOf_spec] at this
          omega
        have hbv := ihv v hszv hwv
        cases rest with
        | nil =>
          simp only [rankMembers, dumpMembers, List.length_append, List.length_cons]
          omega
        | cons kv2 rest2 =>
          have hbr := ihm (kv2 :: rest2) hszr hwr
          have hd : dumpMembers ((k, v) :: kv2 :: rest2) =
              (('"' :: (escStr k ++ ['"'])) ++ ':' :: ' ' :: dumpVal v) ++
                ',' :: ' ' :: dumpMembers (kv2 :: rest2) := by
            simp [dumpMembers]
          rw [hd]
          simp only [rankMembers, List.length_append, List.length_cons]
          simp only [rankMembers] at hbr
          omega

theorem roundVal_step (fuel : Nat) (hi : ParsesDumpItems fuel)
    (hm : ParsesDumpMembers fuel) : ParsesDumpVal (fuel + 1) := by
  intro v X hw hX hr
  cases v with
  | null =>
    rw [show dumpVal .null ++ X = 'n' :: 'u' :: 'l' :: 'l' :: X from rfl]
    rw [parseVal.eq_def]
    simp
  | bool b =>
    cases b with
    | true =>
      rw [show dumpVal (.bool true) ++ X = 't' :: 'r' :: 'u' :: 'e' :: X from rfl]
      rw [parseVal.eq_def]
      simp
    | false =>
      rw [show dumpVal (.bool false) ++ X = 'f' :: 'a' :: 'l' :: 's' :: 'e' :: X from rfl]
      rw [parseVal.eq_def]
      simp
  | num lex =>
    have hlex : numLexemeWF lex = true := by simpa [jsonWF] using hw
    obtain ⟨c, r, hl, hc⟩ := numLexemeWF_head hlex
    obtain ⟨b1, b2, b3, b4, b5, b6⟩ := numHead_branches hc
    subst hl
    rw [show dumpVal (.num (c :: r)) ++ X = c :: (r ++ X) from by simp [dumpVal]]
    rw [parseVal.eq_def]
    simp only [b1, b2, b3, b4, b5, b6, Bool.false_eq_true, if_false]
    have hsn : scanNum ((c :: r) ++ X) = some (c :: r, X) :=
      scanNum_append (by simpa [numLexemeWF] using hlex) hX
    rw [List.cons_append] at hsn
    simp [hsn]
  | str s =>
    rw [show dumpVal (.str s) ++ X = '"' :: (escStr s ++ ('"' :: X)) from by
      simp [dumpVal]]
    rw [parseVal.eq_def]
    simp [parseStrBody_escStr]
  | arr items =>
    cases items with
    | nil =>
      rw [show dumpVal (.arr []) ++ X = '[' :: ']' :: X from rfl]
      rw [parseVal.eq_def]
      simp [skipWs, headIs, List.dropWhile_cons, isJsonWs]
    | cons v1 rest =>
      have hwi : jsonWFItems (v1 :: rest) = true := by simpa [jsonWF] using hw
      have hri : rankItems (v1 :: rest) ≤ fuel := by
        have := hr
        simp only [rankVal] at this
        omega
      obtain ⟨c, t, hit, hp⟩ := dumpItems_head (List.cons_ne_nil v1 rest) hwi
      obtain ⟨f1, f2, f3, f4, f5⟩ := dumpHeadP_facts hp
      have hbody : dumpVal (.arr (v1 :: rest)) ++ X =
          '[' :: (dumpItems (v1 :: rest) ++ (']' :: X)) := by
        simp [dumpVal]
      rw [hbody]
      have hskip : skipWs (dumpItems (v1 :: rest) ++ (']' :: X)) =
          dumpItems (v1 :: rest) ++ (']' :: X) := by
        rw [hit, List.cons_append]
        exact skipWs_cons_not _ f1
      have hhead : headIs ']' (skipWs (dumpItems (v1 :: rest) ++ (']' :: X))) = false := by
        rw [hskip, hit, List.cons_append]
        simp [headIs, f2]
      have hpi : parseItems fuel (skipWs (dumpItems (v1 :: rest) ++ (']' :: X))) =
          some (v1 :: rest, X) := by
        apply hi (v1 :: rest) X _ (List.cons_ne_nil v1 rest) hwi hri
        rw [hskip, hskip]
      rw [parseVal.eq_def]
      simp [hhead, hpi]
  | obj ms =>
    cases ms with
    | nil =>
      rw [show dumpVal (.obj []) ++ X = '\x7b' :: '\x7d' :: X from rfl]
      rw [parseVal.eq_def]
      simp [skipWs, headIs, List.dropWhile_cons, isJsonWs]
    | cons kv rest =>
      have hwm : jsonWFMembers (kv :: rest) = true := by simpa [jsonWF] using hw
      have hrm : rankMembers (kv :: rest) ≤ fuel := by
        have := hr
        simp only [rankVal] at this
        omega
      obtain ⟨t, hmt⟩ := dumpMembers_head (List.cons_ne_nil kv rest)
      have hbody : dumpVal (.obj (kv :: rest)) ++ X =
          '\x7b' :: (dumpMembers (kv :: rest) ++ ('\x7d' :: X)) := by
        simp [dumpVal]
      rw [hbody]
      have hskip : skipWs (dumpMembers (kv :: rest) ++ ('\x7d' :: X)) =
          dumpMembers (kv :: rest) ++ ('\x7d' :: X) := by
        rw [hmt, List.cons_append]
        exact skipWs_cons_not _ (by decide)
      have hhead : headIs '\x7d' (skipWs (dumpMembers (kv :: rest) ++ ('\x7d' :: X))) =
          false := by
        rw [hskip, hmt, List.cons_append]
        simp [headIs]
      have hpm : parseMembers fuel (skipWs (dumpMembers (kv :: rest) ++ ('\x7d' :: X))) =
          some (kv :: rest, X) := by
        apply hm (kv :: rest) X _ (List.cons_ne_nil kv rest) hwm hrm
        rw [hskip, hskip]
      rw [parseVal.eq_def]
      simp [hhead, hpm]

theorem roundItems_step (fuel : Nat) (hv : ParsesDumpVal fuel)
    (hi : ParsesDumpItems fuel) : ParsesDumpItems (fuel + 1) := by
  intro xs X s hne hw hr hskip
  cases xs with
  | nil => exact absurd rfl hne
  | cons v rest =>
    have hwv : jsonWF v = true := by
      have h' := hw
      simp only [jsonWFItems, Bool.and_eq_true] at h'
      exact h'.1
    have hwr : jsonWFItems rest = true := by
      have h' := hw
      simp only [jsonWFItems, Bool.and_eq_true] at h'
      exact h'.2
    rw [parseItems.eq_def]
    cases rest with
    | nil =>
      have hds : skipWs s = dumpVal v ++ (']' :: X) := by
        rw [hskip]; simp [dumpItems]
      have hrv : rankVal v ≤ fuel := by
        simp only [rankItems] at hr; omega
      have hpv : parseVal fuel (skipWs s) = some (v, ']' :: X) := by
        rw [hds]; exact hv v (']' :: X) hwv rfl hrv
      simp only [hpv]
      simp [skipWs, List.dropWhile_cons, isJsonWs, headIs]
    | cons w rest2 =>
      have hds : skipWs s =
          dumpVal v ++ (',' :: ' ' :: (dumpItems (w :: rest2) ++ (']' :: X))) := by
        rw [hskip]; simp [dumpItems]
      have hrv : rankVal v ≤ fuel := by
        simp only [rankItems] at hr; omega
      have hrr : rankItems (w :: rest2) ≤ fuel := by
        simp only [rankItems] at hr ⊢
        have := rankVal_pos v
        omega
      have hpv : parseVal fuel (skipWs s) =
          some (v, ',' :: ' ' :: (dumpItems (w :: rest2) ++ (']' :: X))) := by
        rw [hds]; exact hv v _ hwv rfl hrv
      obtain ⟨c, t, hit, hp⟩ := dumpItems_head (List.cons_ne_nil w rest2) hwr
      have hskip2 : skipWs (' ' :: (dumpItems (w :: rest2) ++ (']' :: X))) =
          dumpItems (w :: rest2) ++ (']' :: X) := by
        rw [skipWs_cons_sp, hit, List.cons_append]
        exact skipWs_cons_not _ (dumpHeadP_facts hp).1
      have hpi : parseItems fuel (' ' :: (dumpItems (w :: rest2) ++ (']' :: X))) =
          some (w :: rest2, X) :=
        hi (w :: rest2) X _ (List.cons_ne_nil w rest2) hwr hrr hskip2
      simp only [hpv]
      simp [skipWs, List.dropWhile_cons, isJsonWs, headIs, hpi]

theorem roundMembers_step (fuel : Nat) (hv : ParsesDumpVal fuel)
    (hm : ParsesDumpMembers fuel) : ParsesDumpMembers (fuel + 1) := by
  intro ms X s hne hw hr hskip
  cases ms with
  | nil => exact absurd rfl hne
  | cons kv rest =>
    obtain ⟨k, v⟩ := kv
    have hwv : jsonWF v = true := by
      have h' := hw
      simp only [jsonWFMembers, Bool.and_eq_true] at h'
      exact h'.1
    have hwr : jsonWFMembers rest = true := by
      have h' := hw
      simp only [jsonWFMembers, Bool.and_eq_true] at h'
      exact h'.2
    obtain ⟨cD, tD, hD, hpD⟩ := dumpVal_head hwv
    rw [parseMembers.eq_def]
    cases rest with
    | nil =>
      have hms : skipWs s =
          '"' :: (escStr k ++ ('"' :: (':' :: ' ' :: (dumpVal v ++ ('\x7d' :: X))))) := by
        rw [hskip]; simp [dumpMembers]
      have hrv : rankVal v ≤ fuel := by
        simp only [rankMembers] at hr; omega
      have hpv : parseVal fuel (dumpVal v ++ ('\x7d' :: X)) = some (v, '\x7d' :: X) :=
        hv v _ hwv rfl hrv
      have hw1 : skipWs (':' :: ' ' :: (dumpVal v ++ ('\x7d' :: X))) =
          ':' :: ' ' :: (dumpVal v ++ ('\x7d' :: X)) :=
        skipWs_cons_not _ rfl
      have hw2 : skipWs (' ' :: (dumpVal v ++ ('\x7d' :: X))) =
          dumpVal v ++ ('\x7d' :: X) := by
        rw [skipWs_cons_sp, hD, List.cons_append]
        exact skipWs_cons_not _ (dumpHeadP_facts hpD).1
      have hw3 : skipWs ('\x7d' :: X) = '\x7d' :: X := skipWs_cons_not _ rfl
      simp only [hms]
      simp [headIs, parseStrBody_escStr, hw1, hw2, hw3, hpv]
    | cons kv2 rest2 =>
      have hms : skipWs s =
          '"' :: (escStr k ++ ('"' :: (':' :: ' ' :: (dumpVal v ++
            (',' :: ' ' :: (dumpMembers (kv2 :: rest2) ++ ('\x7d' :: X))))))) := by
        rw [hskip]; simp [dumpMembers]
      have hrv : rankVal v ≤ fuel := by
        simp only [rankMembers] at hr; omega
      have hrr : rankMembers (kv2 :: rest2) ≤ fuel := by
        simp only [rankMembers] at hr ⊢
        have := rankVal_pos v
        omega
      have hpv : parseVal fuel (dumpVal v ++
          (',' :: ' ' :: (dumpMembers (kv2 :: rest2) ++ ('\x7d' :: X)))) =
          some (v, ',' :: ' ' :: (dumpMembers (kv2 :: rest2) ++ ('\x7d' :: X))) :=
        hv v _ hwv rfl hrv
      have hw1 : skipWs (':' :: ' ' :: (dumpVal v ++
          (',' :: ' ' :: (dumpMembers (kv2 :: rest2) ++ ('\x7d' :: X))))) =
          ':' :: ' ' :: (dumpVal v ++
          (',' :: ' ' :: (dumpMembers (kv2 :: rest2) ++ ('\x7d' :: X)))) :=
        skipWs_cons_not _ rfl
      have hw2 : skipWs (' ' :: (dumpVal v ++
          (',' :: ' ' :: (dumpMembers (kv2 :: rest2) ++ ('\x7d' :: X))))) =
          dumpVal v ++ (',' :: ' ' :: (dumpMembers (kv2 :: rest2) ++ ('\x7d' :: X))) := by
        rw [skipWs_cons_sp, hD, List.cons_append]
        exact skipWs_cons_not _ (dumpHeadP_facts hpD).1
      have hw4 : skipWs (',' :: ' ' :: (dumpMembers (kv2 :: rest2) ++ ('\x7d' :: X))) =
          ',' :: ' ' :: (dumpMembers (kv2 :: rest2) ++ ('\x7d' :: X)) :=
        skipWs_cons_not _ rfl
      obtain ⟨tM, hMt⟩ := dumpMembers_head (List.cons_ne_nil kv2 rest2)
      have hskip3 : skipWs (' ' :: (dumpMembers (kv2 :: rest2) ++ ('\x7d' :: X))) =
          dumpMembers (kv2 :: rest2) ++ ('\x7d' :: X) := by
        rw [skipWs_cons_sp, hMt, List.cons_append]
        exact skipWs_cons_not _ rfl
      have hpm : parseMembers fuel (' ' :: (dumpMembers (kv2 :: rest2) ++ ('\x7d' :: X))) =
          some (kv2 :: rest2, X) :=
        hm (kv2 :: rest2) X _ (List.cons_ne_nil kv2 rest2) hwr hrr hskip3
      simp only [hms]
      simp [headIs, parseStrBody_escStr, hw1, hw2, hw4, hpv, hpm]

theorem round_all : ∀ fuel : Nat,
    ParsesDumpVal fuel ∧ ParsesDumpItems fuel ∧ ParsesDumpMembers fuel := by
  intro fuel
  induction fuel with
  | zero =>
    refine ⟨?_, ?_, ?_⟩
    · intro v X _ _ hr
      exfalso
      have := rankVal_pos v
      omega
    · intro xs X s hne _ hr _
      cases xs with
      | nil => exact absurd rfl hne
      | cons v rest =>
        exfalso
        simp only [rankItems] at hr
        omega
    · intro ms X s hne _ hr _
      cases ms with
      | nil => exact absurd rfl hne
      | cons kv rest =>
        exfalso
        obtain ⟨k, v⟩ := kv
        simp only [rankMembers] at hr
        omega
  | succ fuel ih =>
    obtain ⟨hv, hi, hm⟩ := ih
    exact ⟨roundVal_step fuel hi hm, roundItems_step fuel hv hi,
      roundMembers_step fuel hv hm⟩

theorem parseJson_dumpVal {v : JsonVal} (h : jsonWF v = true) :
    parseJson (dumpVal v) = some v := by
  have hv := (round_all (2 * (dumpVal v).length + 2)).1
  have hrank : rankVal v ≤ 2 * (dumpVal v).length + 2 := by
    have := (rank_bound (sizeOf v)).1 v (Nat.le_refl _) h
    omega
  have hp : parseVal (2 * (dumpVal v).length + 2) (dumpVal v ++ []) = some (v, []) :=
    hv v [] h rfl hrank
  rw [List.append_nil] at hp
  unfold parseJson
  obtain ⟨c, t, hD, hpD⟩ := dumpVal_head h
  have hs : skipWs (dumpVal v) = dumpVal v := by
    rw [hD]; exact skipWs_cons_not _ (dumpHeadP_facts hpD).1
  simp only [hs, hp]
  simp [skipWs]

theorem jsonWF_errorDetailsJson (d : ErrorDetails) :
    jsonWF (errorDetailsJson d) = true := by
  cases htb : d.tb <;> simp [errorDetailsJson, htb, jsonWF, jsonWFMembers]

theorem execLoop_ret_shape {ep : Nat → List Char → AttemptResult} {q : List Char} :
    ∀ fuel attempt backoff sleeps,
      (∃ n v, ep n (full_query q) = .success v ∧
        (execLoop ep q fuel attempt backoff sleeps).ret = .payload v) ∨
      (∃ d, (execLoop ep q fuel attempt backoff sleeps).ret = .errorReturn d) := by
  intro fuel
  induction fuel with
  | zero =>
    intro attempt backoff sleeps
    right
    exact ⟨_, rfl⟩
  | succ fuel ih =>
    intro attempt backoff sleeps
    cases h : ep attempt (full_query q) with
    | success v =>
      left
      exact ⟨attempt, v, h, by rw [execLoop_success fuel backoff sleeps h]⟩
    | timeoutErr msg tb =>
      by_cases ha : attempt < 3 - 1
      · rw [execLoop_retry_step fuel backoff sleeps ha (by rw [h]; rfl)]
        exact ih (attempt + 1) (backoff * 2) (sleeps ++ [backoff])
      · right
        rw [execLoop_terminal fuel backoff sleeps ha (by rw [h]; rfl)]
        exact ⟨_, rfl⟩
    | connectionErr msg tb =>
      by_cases ha : attempt < 3 - 1
      · rw [execLoop_retry_step fuel backoff sleeps ha (by rw [h]; rfl)]
        exact ih (attempt + 1) (backoff * 2) (sleeps ++ [backoff])
      · right
        rw [execLoop_terminal fuel backoff sleeps ha (by rw [h]; rfl)]
        exact ⟨_, rfl⟩
    | otherErr tn msg tb =>
      by_cases ha : attempt < 3 - 1
      · rw [execLoop_retry_step fuel backoff sleeps ha (by rw [h]; rfl)]
        exact ih (attempt + 1) (backoff * 2) (sleeps ++ [backoff])
      · right
        rw [execLoop_terminal fuel backoff sleeps ha (by rw [h]; rfl)]
        exact ⟨_, rfl⟩
    | queryBadFormed msg tb =>
      right
      rw [execLoop_badFormed fuel backoff sleeps h]
      exact ⟨_, rfl⟩

theorem exec_sparql_objWF {ep : Nat → List Char → AttemptResult}
    (hep : EndpointObjWF ep) (q : List Char) :
    ∃ ms, execute_sparql ep q = dumpVal (.obj ms) ∧ jsonWF (.obj ms) = true := by
  unfold execute_sparql execute_sparql_run
  rcases @execLoop_ret_shape ep q 3 0 1 [] with ⟨n, v, hnv, hret⟩ | ⟨d, hret⟩
  · obtain ⟨⟨ms, hms⟩, hwf⟩ := hep n (full_query q) v hnv
    subst hms
    rw [hret]
    exact ⟨ms, rfl, hwf⟩
  · rw [hret]
    show ∃ ms, dumpVal (errorDetailsJson d) = dumpVal (.obj ms) ∧
      jsonWF (.obj ms) = true
    unfold errorDetailsJson
    cases htb : d.tb with
    | some t => exact ⟨_, rfl, by simp [jsonWF, jsonWFMembers]⟩
    | none => exact ⟨_, rfl, by simp [jsonWF, jsonWFMembers]⟩

theorem objGet_WF {ms : List (List Char × JsonVal)} {k : List Char} {v : JsonVal}
    (hwf : jsonWFMembers ms = true) (h : objGet ms k = some v) :
    jsonWF v = true := by
  induction ms with
  | nil => simp [objGet] at h
  | cons kv rest ih =>
    obtain ⟨k', v'⟩ := kv
    have hwf' := hwf
    simp only [jsonWFMembers, Bool.and_eq_true] at hwf'
    unfold objGet at h
    rw [List.find?] at h
    by_cases hk : (k' == k) = true
    · simp only [hk] at h
      have : v' = v := by simpa using h
      subst this
      exact hwf'.1
    · have hkf : (k' == k) = false := by
        cases hkk : (k' == k) with
        | false => rfl
        | true => exact absurd hkk hk
      simp only [hkf] at h
      exact ih hwf'.2 h

theorem jsonGetD_WF {v d : JsonVal} {k : List Char}
    (hv : jsonWF v = true) (hd : jsonWF d = true) :
    jsonWF (jsonGetD v k d) = true := by
  cases v with
  | obj ms =>
    show jsonWF ((objGet ms k).getD d) = true
    cases hg : objGet ms k with
    | none => simpa using hd
    | some w =>
      have hwm : jsonWFMembers ms = true := by simpa [jsonWF] using hv
      simpa using objGet_WF hwm hg
  | null => simpa [jsonGetD] using hd
  | bool b => simpa [jsonGetD] using hd
  | num lex => simpa [jsonGetD] using hd
  | str s => simpa [jsonGetD] using hd
  | arr xs => simpa [jsonGetD] using hd

theorem objSet_WF {ms : List (List Char × JsonVal)} {k : List Char} {v : JsonVal}
    (hms : jsonWFMembers ms = true) (hv : jsonWF v = true) :
    jsonWFMembers (objSet ms k v) = true := by
  induction ms with
  | nil => simpa [objSet, jsonWFMembers] using hv
  | cons kv rest ih =>
    obtain ⟨k', v'⟩ := kv
    have hms' := hms
    simp only [jsonWFMembers, Bool.and_eq_true] at hms'
    unfold objSet
    by_cases hk : (k' == k) = true
    · simp only [hk, if_true]
      simp [jsonWFMembers, hv, hms'.2]
    · have hkf : (k' == k) = false := by
        cases hkk : (k' == k) with
        | false => rfl
        | true => exact absurd hkk hk
      simp only [hkf, Bool.false_eq_true, if_false]
      simp [jsonWFMembers, hms'.1, ih hms'.2]

theorem optStrJson_WF (o : Option (List Char)) : jsonWF (optStrJson o) = true := by
  cases o <;> simp [optStrJson, jsonWF]

theorem get_wikidata_metadata_out {metadata : JsonVal} (entity_id : List Char)
    (h : jsonWF metadata = true) :
    ∃ w, get_wikidata_metadata entity_id metadata = dumpVal w ∧ jsonWF w = true := by
  cases metadata with
  | obj ms =>
    have hwm : jsonWFMembers ms = true := by simpa [jsonWF] using h
    simp only [get_wikidata_metadata]
    by_cases he : objHasKey ms "error".data = true
    · rw [if_pos he]
      refine ⟨_, rfl, ?_⟩
      have hdet : jsonWF ((objGet ms "error".data).getD .null) = true := by
        cases hg : objGet ms "error".data with
        | none => simp [jsonWF]
        | some w => simpa using objGet_WF hwm hg
      simp [jsonWF, jsonWFMembers, hdet]
    · rw [if_neg he]
      exact ⟨.obj ms, rfl, h⟩
  | null => exact ⟨.null, rfl, h⟩
  | bool b => exact ⟨.bool b, rfl, h⟩
  | num lex => exact ⟨.num lex, rfl, h⟩
  | str s => exact ⟨.str s, rfl, h⟩
  | arr xs => exact ⟨.arr xs, rfl, h⟩

theorem execute_wikidata_sparql_out {ep : Nat → List Char → AttemptResult}
    (hep : EndpointObjWF ep) (q : List Char) :
    ∃ w, execute_wikidata_sparql ep q = dumpVal w ∧ jsonWF w = true := by
  unfold execute_wikidata_sparql
  cases hv : (validate_sparql_query q).is_valid with
  | false =>
    simp only [hv, Bool.not_false, if_true]
    refine ⟨_, rfl, ?_⟩
    simp [jsonWF, jsonWFMembers, optStrJson_WF]
  | true =>
    simp only [hv, Bool.not_true, Bool.false_eq_true, if_false]
    obtain ⟨ms, hraw, hwfo⟩ := exec_sparql_objWF hep q
    rw [hraw, parseJson_dumpVal hwfo]
    by_cases he : errShaped (.obj ms) = true
    · simp only [he, if_true]
      refine ⟨_, rfl, ?_⟩
      have h1 : jsonWF (jsonGetD (.obj ms) "error".data
          (.str "Unknown error from wikidata_api".data)) = true :=
        jsonGetD_WF hwfo (by simp [jsonWF])
      have h2 : jsonWF (jsonGetD (.obj ms) "error_type".data
          (.str "UnknownErrorType".data)) = true :=
        jsonGetD_WF hwfo (by simp [jsonWF])
      have h3 : jsonWF (jsonGetD (.obj ms) "query".data (.str q)) = true :=
        jsonGetD_WF hwfo (by simp [jsonWF])
      simp [jsonWF, jsonWFMembers, h1, h2, h3]
    · have hef : errShaped (.obj ms) = false := by
        cases hee : errShaped (.obj ms) with
        | false => rfl
        | true => exact absurd hee he
      simp only [hef, Bool.false_eq_true, if_false]
      exact ⟨.obj ms, rfl, hwfo⟩

section

attribute [local irreducible] execute_wikidata_sparql

set_option maxHeartbeats 2000000 in
theorem findFactsFinish_out {ep : Nat → List Char → AttemptResult}
    {metadata : JsonVal} (hep : EndpointObjWF ep)
    (entity_name : List Char) (property_name : Option (List Char))
    (entity_id : List Char) (property_id : Option (List Char))
    (hm : jsonWF metadata = true) :
    ∃ w, findFactsFinish ep entity_name property_name entity_id metadata
      property_id = dumpVal w ∧ jsonWF w = true := by
  cases property_id with
  | some pid =>
    obtain ⟨w0, hfw, hwf0⟩ := execute_wikidata_sparql_out hep
      (factsQueryProp entity_id pid)
    simp only [findFactsFinish, hfw, parseJson_dumpVal hwf0]
    exact ⟨_, rfl, by simp [jsonWF, jsonWFMembers, hm, hwf0, optStrJson_WF]⟩
  | none =>
    obtain ⟨w0, hfw, hwf0⟩ := execute_wikidata_sparql_out hep
      (factsQueryGen entity_id)
    simp only [findFactsFinish, hfw, parseJson_dumpVal hwf0]
    exact ⟨_, rfl, by simp [jsonWF, jsonWFMembers, hm, hwf0]⟩

theorem search_prop_parse_WF {pname propRes : List Char}
    (hraw : ∀ d, parseJson propRes = some d → jsonWF d = true) :
    ∀ d, parseJson (search_wikidata_property pname propRes) = some d →
      jsonWF d = true := by
  intro d hd
  unfold search_wikidata_property at hd
  by_cases h1 : "Error searching for property:".data.isPrefixOf propRes = true
  · rw [if_pos h1] at hd
    rw [parseJson_dumpVal (by simp [jsonWF, jsonWFMembers])] at hd
    rw [← Option.some.inj hd]
    simp [jsonWF, jsonWFMembers]
  · rw [if_neg h1] at hd
    by_cases h2 : (propRes == "No property found".data) = true
    · rw [if_pos h2] at hd
      rw [parseJson_dumpVal (by simp [jsonWF, jsonWFMembers])] at hd
      rw [← Option.some.inj hd]
      simp [jsonWF, jsonWFMembers]
    · rw [if_neg h2] at hd
      exact hraw d hd

/-- C1 counterexample: on a successful entity search the tool returns the raw
entity ID string unchanged, and that string is not valid JSON
(`json.loads("Q937")` raises `JSONDecodeError`). -/
theorem c1_counterexample :
    search_wikidata_entity "Albert Einstein".data "Q937".data = "Q937".data ∧
    parseJson "Q937".data = none := by
  exact ⟨by decide, rfl⟩

set_option maxHeartbeats 2000000 in
/-- C1 (corrected): what each tool of the Tool Façade actually returns.  The
two search tools wrap their failure cases as JSON objects with an `error` key
but pass the raw (non-JSON) ID string through on success;
`get_wikidata_metadata`, `execute_wikidata_sparql`, `find_entity_facts` and
`get_related_entities` always return a string that parses as JSON; and
`get_wikidata_properties` never returns: it raises `TypeError`, because
`json.loads` is applied to the already-parsed value `get_entity_properties`
returned and the `except json.JSONDecodeError` clause does not catch
`TypeError`. -/
theorem c1_tool_results :
    (∀ query result,
      ("Error searching for entity:".data.isPrefixOf result = true ∨
        result = "No entity found".data) →
      ∃ ms, parseJson (search_wikidata_entity query result) = some (.obj ms) ∧
        objHasKey ms "error".data = true) ∧
    (∀ query result,
      "Error searching for entity:".data.isPrefixOf result = false →
      result ≠ "No entity found".data →
      search_wikidata_entity query result = result) ∧
    (∀ query result,
      ("Error searching for property:".data.isPrefixOf result = true ∨
        result = "No property found".data) →
      ∃ ms, parseJson (search_wikidata_property query result) = some (.obj ms) ∧
        objHasKey ms "error".data = true) ∧
    (∀ query result,
      "Error searching for property:".data.isPrefixOf result = false →
      result ≠ "No property found".data →
      search_wikidata_property query result = result) ∧
    (∀ entity_id metadata, jsonWF metadata = true →
      ∃ v, parseJson (get_wikidata_metadata entity_id metadata) = some v) ∧
    (∀ ep entity_id, EndpointObjWF ep →
      get_wikidata_properties ep entity_id = .error "TypeError".data) ∧
    (∀ ep q, EndpointObjWF ep →
      ∃ v, parseJson (execute_wikidata_sparql ep q) = some v) ∧
    (∀ ep entity_name property_name entRes metaRes propRes,
      EndpointObjWF ep → jsonWF metaRes = true →
      (∀ d, parseJson propRes = some d → jsonWF d = true) →
      ∃ v, parseJson (find_entity_facts ep entity_name property_name entRes
        metaRes propRes) = some v) ∧
    (∀ ep entity_id relation_property limit, EndpointObjWF ep →
      ∃ v, parseJson (get_related_entities ep entity_id relation_property limit) =
        some v) := by
  refine ⟨?_, ?_, ?_, ?_, ?_, ?_, ?_, ?_, ?_⟩
  · intro query result h
    unfold search_wikidata_entity
    rcases h with h1 | h2
    · rw [if_pos h1]
      rw [parseJson_dumpVal (by simp [jsonWF, jsonWFMembers])]
      exact ⟨_, rfl, rfl⟩
    · subst h2
      rw [if_neg (by decide), if_pos (by decide)]
      rw [parseJson_dumpVal (by simp [jsonWF, jsonWFMembers])]
      exact ⟨_, rfl, rfl⟩
  · intro query result h1 h2
    unfold search_wikidata_entity
    rw [if_neg (by simp [h1]), if_neg (by simpa using h2)]
  · intro query result h
    unfold search_wikidata_property
    rcases h with h1 | h2
    · rw [if_pos h1]
      rw [parseJson_dumpVal (by simp [jsonWF, jsonWFMembers])]
      exact ⟨_, rfl, rfl⟩
    · subst h2
      rw [if_neg (by decide), if_pos (by decide)]
      rw [parseJson_dumpVal (by simp [jsonWF, jsonWFMembers])]
      exact ⟨_, rfl, rfl⟩
  · intro query result h1 h2
    unfold search_wikidata_property
    rw [if_neg (by simp [h1]), if_neg (by simpa using h2)]
  · intro entity_id metadata h
    obtain ⟨w, hw, hwf⟩ := get_wikidata_metadata_out entity_id h
    rw [hw, parseJson_dumpVal hwf]
    exact ⟨w, rfl⟩
  · intro ep entity_id hep
    unfold get_wikidata_properties get_entity_properties
    obtain ⟨ms, hraw, hwfo⟩ := exec_sparql_objWF hep (propsQuery entity_id)
    rw [hraw, parseJson_dumpVal hwfo]
  · intro ep q hep
    obtain ⟨w, hw, hwf⟩ := execute_wikidata_sparql_out hep q
    rw [hw, parseJson_dumpVal hwf]
    exact ⟨w, rfl⟩
  · intro ep entity_name property_name entRes metaRes propRes hep hm hpw
    simp only [find_entity_facts]
    cases hpe : parseJson (search_wikidata_entity entity_name entRes) with
    | some d =>
      by_cases hek : hasErrKey d = true
      · simp only [hpe, hek, if_true]
        exact ⟨d, rfl⟩
      · have hekf : hasErrKey d = false := by
          cases hee : hasErrKey d with
          | false => rfl
          | true => exact absurd hee hek
        simp only [hpe, hekf, Bool.false_eq_true, if_false]
        obtain ⟨W, hW, hWwf⟩ := get_wikidata_metadata_out
          (search_wikidata_entity entity_name entRes) hm
        rw [hW, parseJson_dumpVal hWwf]
        by_cases hWe : hasErrKey W = true
        · simp only [hWe, if_true]
          cases W with
          | obj msW =>
            have hmsW : jsonWFMembers msW = true := by simpa [jsonWF] using hWwf
            have hset : jsonWF (.obj (objSet msW "context".data
                (.str ("Error fetching metadata for entity \x27".data ++ entity_name ++
                  "\x27 (ID: ".data ++ search_wikidata_entity entity_name entRes ++
                  ").".data)))) = true := by
              simpa [jsonWF] using objSet_WF hmsW (by simp [jsonWF])
            exact ⟨_, parseJson_dumpVal hset⟩
          | null => exact ⟨_, parseJson_dumpVal hWwf⟩
          | bool b => exact ⟨_, parseJson_dumpVal hWwf⟩
          | num lex => exact ⟨_, parseJson_dumpVal hWwf⟩
          | str sW => exact ⟨_, parseJson_dumpVal hWwf⟩
          | arr xs => exact ⟨_, parseJson_dumpVal hWwf⟩
        · have hWef : hasErrKey W = false := by
            cases hee : hasErrKey W with
            | false => rfl
            | true => exact absurd hee hWe
          simp only [hWef, Bool.false_eq_true, if_false]
          cases property_name with
          | none =>
            obtain ⟨w, hw, hwf⟩ := findFactsFinish_out hep entity_name none
              (search_wikidata_entity entity_name entRes) none hWwf
            rw [hw, parseJson_dumpVal hwf]
            exact ⟨w, rfl⟩
          | some pname =>
            cases hpp : parseJson (search_wikidata_property pname propRes) with
            | some dP =>
              by_cases hdP : hasErrKey dP = true
              · simp only [hpp, hdP, if_true]
                have hdPwf : jsonWF dP = true := search_prop_parse_WF hpw dP hpp
                exact ⟨_, parseJson_dumpVal
                  (by simp [jsonWF, jsonWFMembers, hWwf, hdPwf])⟩
              · have hdPf : hasErrKey dP = false := by
                  cases hee : hasErrKey dP with
                  | false => rfl
                  | true => exact absurd hee hdP
                simp only [hpp, hdPf, Bool.false_eq_true, if_false]
                obtain ⟨w, hw, hwf⟩ := findFactsFinish_out hep entity_name
                  (some pname) (search_wikidata_entity entity_name entRes)
                  (some (search_wikidata_property pname propRes)) hWwf
                rw [hw, parseJson_dumpVal hwf]
                exact ⟨w, rfl⟩
            | none =>
              simp only [hpp]
              obtain ⟨w, hw, hwf⟩ := findFactsFinish_out hep entity_name
                (some pname) (search_wikidata_entity entity_name entRes)
                (some (search_wikidata_property pname propRes)) hWwf
              rw [hw, parseJson_dumpVal hwf]
              exact ⟨w, rfl⟩
    | none =>
      simp only [hpe, Bool.false_eq_true, if_false]
      obtain ⟨W, hW, hWwf⟩ := get_wikidata_metadata_out
        (search_wikidata_entity entity_name entRes) hm
      rw [hW, parseJson_dumpVal hWwf]
      by_cases hWe : hasErrKey W = true
      · simp only [hWe, if_true]
        cases W with
        | obj msW =>
          have hmsW : jsonWFMembers msW = true := by simpa [jsonWF] using hWwf
          have hset : jsonWF (.obj (objSet msW "context".data
              (.str ("Error fetching metadata for entity \x27".data ++ entity_name ++
                "\x27 (ID: ".data ++ search_wikidata_entity entity_name entRes ++
                ").".data)))) = true := by
            simpa [jsonWF] using objSet_WF hmsW (by simp [jsonWF])
          exact ⟨_, parseJson_dumpVal hset⟩
        | null => exact ⟨_, parseJson_dumpVal hWwf⟩
        | bool b => exact ⟨_, parseJson_dumpVal hWwf⟩
        | num lex => exact ⟨_, parseJson_dumpVal hWwf⟩
        | str sW => exact ⟨_, parseJson_dumpVal hWwf⟩
        | arr xs => exact ⟨_, parseJson_dumpVal hWwf⟩
      · have hWef : hasErrKey W = false := by
          cases hee : hasErrKey W with
          | false => rfl
          | true => exact absurd hee hWe
        simp only [hWef, Bool.false_eq_true, if_false]
        cases property_name with
        | none =>
          obtain ⟨w, hw, hwf⟩ := findFactsFinish_out hep entity_name none
            (search_wikidata_entity entity_name entRes) none hWwf
          rw [hw, parseJson_dumpVal hwf]
          exact ⟨w, rfl⟩
        | some pname =>
          cases hpp : parseJson (search_wikidata_property pname propRes) with
          | some dP =>
            by_cases hdP : hasErrKey dP = true
            · simp only [hpp, hdP, if_true]
              have hdPwf : jsonWF dP = true := search_prop_parse_WF hpw dP hpp
              exact ⟨_, parseJson_dumpVal
                (by simp [jsonWF, jsonWFMembers, hWwf, hdPwf])⟩
            · have hdPf : hasErrKey dP = false := by
                cases hee : hasErrKey dP with
                | false => rfl
                | true => exact absurd hee hdP
              simp only [hpp, hdPf, Bool.false_eq_true, if_false]
              obtain ⟨w, hw, hwf⟩ := findFactsFinish_out hep entity_name
                (some pname) (search_wikidata_entity entity_name entRes)
                (some (search_wikidata_property pname propRes)) hWwf
              rw [hw, parseJson_dumpVal hwf]
              exact ⟨w, rfl⟩
          | none =>
            simp only [hpp]
            obtain ⟨w, hw, hwf⟩ := findFactsFinish_out hep entity_name
              (some pname) (search_wikidata_entity entity_name entRes)
              (some (search_wikidata_property pname propRes)) hWwf
            rw [hw, parseJson_dumpVal hwf]
            exact ⟨w, rfl⟩
  · intro ep entity_id relation_property limit hep
    cases relation_property with
    | some rp =>
      obtain ⟨w, hw, hwf⟩ := execute_wikidata_sparql_out hep
        (relatedQueryProp entity_id rp limit)
      simp only [get_related_entities, hw, parseJson_dumpVal hwf]
      exact ⟨w, rfl⟩
    | none =>
      obtain ⟨w, hw, hwf⟩ := execute_wikidata_sparql_out hep
        (relatedQueryGen entity_id limit)
      simp only [get_related_entities, hw, parseJson_dumpVal hwf]
      exact ⟨w, rfl⟩

/-- C1 witness: a failed entity search produces a JSON error object, a
bad-query endpoint makes `get_wikidata_properties` raise `TypeError`, and
`get_related_entities` yields valid JSON against the same endpoint. -/
theorem c1_witness :
    (∃ ms, parseJson (search_wikidata_entity "Tokyo".data "No entity found".data) =
      some (.obj ms) ∧ objHasKey ms "error".data = true) ∧
    get_wikidata_properties epBadFormed "Q42".data = .error "TypeError".data ∧
    (∃ v, parseJson (get_related_entities epBadFormed "Q42".data none 10) = some v) := by
  have hep : EndpointObjWF epBadFormed := by
    intro n q v h
    simp [epBadFormed] at h
  exact ⟨c1_tool_results.1 "Tokyo".data "No entity found".data (Or.inr rfl),
    c1_tool_results.2.2.2.2.2.1 epBadFormed "Q42".data hep,
    c1_tool_results.2.2.2.2.2.2.2.2 epBadFormed "Q42".data none 10 hep⟩

end
